import Mathlib

/-!
A shallow embedding, over `ℝ`, of the closed-loop usage-pacing simulator:
the shared helpers (`helpers.py`), the step-based calibrator family
(`step_algorithms.py`) and the closed-loop week simulator (`simulate.py`),
together with theorems settling the specification claims.

Python lists that are only ever appended to and indexed from the back
(`session_polls`, `signal_history`, the delay ring buffer, `session_cals`)
are stored newest-first (`l[-1]` is the head); helpers that traverse them
chronologically do so via `List.reverse`.
-/

noncomputable section

namespace Usage

/-- `Poll` from `constants.py`: one sampled snapshot of usage state. -/
structure Poll where
  t : ℝ   -- minutes from week start
  su : ℝ  -- session usage %
  sr : ℝ  -- session remaining min
  wu : ℝ  -- weekly usage %
  wr : ℝ  -- weekly remaining min
deriving DecidableEq

-- ── Constants (constants.py) ──────────────────────────────────────────

def SESSION_MIN : ℝ := 300
def WEEK_MIN : ℝ := 10080
def POLL_INTERVAL : ℝ := 5
def EMA_ALPHA : ℝ := 0.3
def BOUNDARY_JUMP : ℝ := 30
def GAP_THRESHOLD : ℝ := 15
def EXCHANGE_RATE : ℝ := 0.12
def ACTIVE_START : ℝ := 10
def ACTIVE_END : ℝ := 20
def COMPLIANCE_GAIN : ℝ := 0.7
def FATIGUE_RATE : ℝ := 0.003
def FATIGUE_FLOOR : ℝ := 0.85
def FATIGUE_SAT : ℝ := 0.9

-- ── Shared helpers (helpers.py) ───────────────────────────────────────

/-- `detect_boundary(poll, prev)` from `helpers.py`. -/
def detect_boundary (poll : Poll) (prev : Option Poll) : Bool :=
  match prev with
  | none => true
  | some pp =>
    if poll.sr - pp.sr > BOUNDARY_JUMP then true
    else if poll.t - pp.t > pp.sr then true
    else false

/-- The `while cursor < end_min` loop of `active_hours_in_range`, with the
day count as structural fuel (each iteration advances `cursor` to the next
multiple of 1440). -/
def active_hours_aux : ℕ → ℝ → ℝ → ℝ → ℝ
  | 0, _, _, total => total
  | fuel + 1, cursor, end_min, total =>
    if cursor < end_min then
      let day_base : ℝ := (⌊cursor / 1440⌋ : ℝ) * 1440
      let w_open := day_base + ACTIVE_START * 60
      let w_close := day_base + ACTIVE_END * 60
      let next_day := day_base + 1440
      let seg_end := min end_min next_day
      let o_start := max cursor w_open
      let o_end := min seg_end w_close
      let total' := if o_end > o_start then total + (o_end - o_start) / 60 else total
      active_hours_aux fuel next_day end_min total'
    else total

/-- `active_hours_in_range(start_min, end_min)` from `helpers.py`; the fuel
bounds the number of loop iterations (one per day overlapping the range). -/
def active_hours_in_range (start_min end_min : ℝ) : ℝ :=
  active_hours_aux (⌈(end_min - start_min) / 1440⌉.toNat + 1) start_min end_min 0

/-- `weekly_expected(poll)` from `helpers.py`. -/
def weekly_expected (poll : Poll) : ℝ :=
  let elapsed := WEEK_MIN - poll.wr
  let week_start_t := poll.t - elapsed
  let week_end_t := poll.t + poll.wr
  let ae := active_hours_in_range week_start_t poll.t
  let at' := active_hours_in_range week_start_t week_end_t
  if at' > 0 then min 100 ((ae / at') * 100) else 0

/-- `weekly_projected(poll)` from `helpers.py`. -/
def weekly_projected (poll : Poll) : Option ℝ :=
  let elapsed := WEEK_MIN - poll.wr
  let week_start_t := poll.t - elapsed
  let week_end_t := poll.t + poll.wr
  let ae := active_hours_in_range week_start_t poll.t
  if ae < 0.5 then none
  else
    let ar := active_hours_in_range poll.t week_end_t
    some (poll.wu + (poll.wu / ae) * ar)

/-- `weekly_deviation(poll)` from `helpers.py`. -/
def weekly_deviation (poll : Poll) : ℝ :=
  if poll.wr ≤ 0 then 0
  else
    let exp' := weekly_expected poll
    let positional := (exp' - poll.wu) / 100
    match weekly_projected poll with
    | some proj =>
      let vel_dev := (100 - proj) / 100
      Real.tanh (2 * (0.5 * positional + 0.5 * vel_dev))
    | none => Real.tanh (2 * positional)

/-- `session_target(deviation)` from `helpers.py`. -/
def session_target (deviation : ℝ) : ℝ :=
  100 * max 0.1 (min 1 (1 + deviation))

/-- The `for j in range(1, len(...))` loop of `ema_velocity`, walking the
polls in chronological order (`p` is the previous poll). -/
def ema_velocity_aux : Poll → List Poll → Option ℝ → Option ℝ
  | _, [], ema => ema
  | p, q :: rest, ema =>
    let dt := q.t - p.t
    let ema' :=
      if dt ≤ 0 ∨ dt > GAP_THRESHOLD then ema
      else
        let instant := (q.su - p.su) / dt
        some (match ema with
              | none => instant
              | some e => EMA_ALPHA * instant + (1 - EMA_ALPHA) * e)
    ema_velocity_aux q rest ema'

/-- `ema_velocity(session_polls)` from `helpers.py`; `session_polls` is
stored newest-first, so the chronological walk is over its reverse. -/
def ema_velocity (session_polls : List Poll) : Option ℝ :=
  if session_polls.length < 2 then none
  else
    match session_polls.reverse with
    | [] => none
    | p :: rest => ema_velocity_aux p rest none

/-- `rate_calibrator(poll, velocity)` from `helpers.py`. -/
def rate_calibrator (poll : Poll) (velocity : Option ℝ) : ℝ :=
  let dev := weekly_deviation poll
  let tgt := session_target dev
  if poll.sr ≤ 0 then 0
  else
    let tau := max poll.sr 0.1
    let optimal := min (max ((tgt - poll.su) / tau) 0) (max ((100 - poll.su) / tau) 0)
    let elapsed := SESSION_MIN - poll.sr
    match velocity with
    | none =>
      if elapsed < 5 then 0
      else
        let v := poll.su / max elapsed 0.1
        let vel := max v 0
        if optimal < 1e-6 then (if vel > 1e-6 then 1 else 0)
        else max (-1) (min 1 ((vel - optimal) / optimal))
    | some v =>
      let vel := max v 0
      if optimal < 1e-6 then (if vel > 1e-6 then 1 else 0)
      else max (-1) (min 1 ((vel - optimal) / optimal))

-- ── Step-based calibrators (step_algorithms.py) ───────────────────────

/-- `NoFeedbackStep.step`: always returns 0. -/
def NoFeedbackStep.step (_poll : Poll) : ℝ := 0

/-- State of `CurrentStep` (also the shape of `PathAStep` and
`SoftThrottleStep`): session polls (newest-first), previous poll, and the
incrementally maintained EMA. -/
structure EmaState where
  session_polls : List Poll
  prev : Option Poll
  ema : Option ℝ

def EmaState.init : EmaState := ⟨[], none, none⟩

/-- The shared state-update prefix of `CurrentStep.step`, `PathAStep.step`
and `SoftThrottleStep.step`: boundary reset, poll append, incremental EMA
update (over `session_polls[-2]`, i.e. the head of the pre-append list). -/
def EmaState.update (s : EmaState) (poll : Poll) : EmaState :=
  let s1 := if detect_boundary poll s.prev then ({ s with session_polls := [], ema := none } : EmaState) else s
  let sp := poll :: s1.session_polls
  let ema' :=
    match s1.session_polls with
    | [] => s1.ema
    | pp :: _ =>
      let dt := poll.t - pp.t
      if 0 < dt ∧ dt ≤ GAP_THRESHOLD then
        let instant := (poll.su - pp.su) / dt
        some (match s1.ema with
              | none => instant
              | some e => EMA_ALPHA * instant + (1 - EMA_ALPHA) * e)
      else s1.ema
  ⟨sp, some poll, ema'⟩

/-- `CurrentStep.step`: the signal computation inlined in the source after
the EMA update is exactly the body of `rate_calibrator(poll, self._ema)`. -/
def CurrentStep.step (s : EmaState) (poll : Poll) : EmaState × ℝ :=
  let s' := s.update poll
  (s', rate_calibrator poll s'.ema)

/-- The signal computation of `PathAStep.step`. -/
def PathA_signal (poll : Poll) (ema : Option ℝ) : ℝ :=
  let dev := weekly_deviation poll
  let tgt := session_target dev
  if poll.sr ≤ 0 then 0
  else
    let elapsed := SESSION_MIN - poll.sr
    let tau := max poll.sr 0.1
    let optimal := min (max ((tgt - poll.su) / tau) 0) (max ((100 - poll.su) / tau) 0)
    let finish : ℝ → ℝ := fun velocity =>
      let vel := max velocity 0
      let rate_cal :=
        if optimal < 1e-6 then (if vel > 1e-6 then 1 else 0)
        else max (-1) (min 1 ((vel - optimal) / optimal))
      let s_frac := poll.sr / SESSION_MIN
      let weekly_cal := -dev
      max (-1) (min 1 (s_frac * rate_cal + (1 - s_frac) * weekly_cal))
    match ema with
    | none =>
      if elapsed < 5 then 0
      else finish (poll.su / max elapsed 0.1)
    | some raw_vel =>
      let avg_vel := poll.su / max elapsed 0.1
      let frac := min (elapsed / 60) 1
      finish (frac * raw_vel + (1 - frac) * avg_vel)

/-- `PathAStep.step`. -/
def PathAStep.step (s : EmaState) (poll : Poll) : EmaState × ℝ :=
  let s' := s.update poll
  (s', PathA_signal poll s'.ema)

/-- `PathBStep.step` (stateless). -/
def PathBStep.step (poll : Poll) : ℝ :=
  let dev := weekly_deviation poll
  let tgt := session_target dev
  if poll.sr ≤ 0 then 0
  else
    let elapsed := SESSION_MIN - poll.sr
    if elapsed < 5 then 0
    else
      let expected_su := tgt * (elapsed / SESSION_MIN)
      let session_err := (poll.su - expected_su) / max tgt 1
      let s_frac := poll.sr / SESSION_MIN
      let weekly_signal := -dev
      max (-1) (min 1 (s_frac * session_err + (1 - s_frac) * weekly_signal))

/-- State of `HoltStep`. -/
structure HoltState where
  prev : Option Poll
  session_polls : List Poll
  s : Option ℝ
  b : ℝ

def HoltState.init : HoltState := ⟨none, [], none, 0⟩

/-- `HoltStep.step`. -/
def HoltStep.step (st : HoltState) (poll : Poll) : HoltState × ℝ :=
  let s1 := if detect_boundary poll st.prev
            then ({ st with session_polls := [], s := none, b := 0 } : HoltState) else st
  let sp := poll :: s1.session_polls
  let (sNew, bNew) :=
    match s1.session_polls with
    | [] => (s1.s, s1.b)
    | pp :: _ =>
      let dt := poll.t - pp.t
      if 0 < dt ∧ dt ≤ GAP_THRESHOLD then
        let iv := (poll.su - pp.su) / dt
        match s1.s with
        | none => (some iv, 0)
        | some sv =>
          let s_new := 0.3 * iv + 0.7 * (sv + s1.b)
          (some s_new, 0.1 * (s_new - sv) + 0.9 * s1.b)
      else (s1.s, s1.b)
  (⟨some poll, sp, sNew, bNew⟩, rate_calibrator poll sNew)

/-- State of `AlphaBetaStep`. -/
structure AlphaBetaState where
  prev : Option Poll
  x : ℝ
  v : Option ℝ
  last_t : Option ℝ

def AlphaBetaState.init : AlphaBetaState := ⟨none, 0, none, none⟩

/-- `AlphaBetaStep.step`. -/
def AlphaBetaStep.step (st : AlphaBetaState) (poll : Poll) : AlphaBetaState × ℝ :=
  if detect_boundary poll st.prev then
    (⟨some poll, poll.su, none, some poll.t⟩, rate_calibrator poll none)
  else
    let dt := match st.last_t with | some lt => poll.t - lt | none => 0
    let (x', v') :=
      if 0 < dt ∧ dt ≤ GAP_THRESHOLD then
        match st.v with
        | some v =>
          let x_pred := st.x + v * dt
          let residual := poll.su - x_pred
          (x_pred + 0.2 * residual, some (v + (0.1 / dt) * residual))
        | none =>
          let residual := poll.su - st.x
          (st.x + 0.2 * residual, some ((0.1 / dt) * residual))
      else (poll.su, (none : Option ℝ))
    (⟨some poll, x', v', some poll.t⟩, rate_calibrator poll v')

/-- State of `PIDStep`. -/
structure PIDState where
  prev : Option Poll
  integral : ℝ
  prev_error : ℝ

def PIDState.init : PIDState := ⟨none, 0, 0⟩

/-- `PIDStep.step`. -/
def PIDStep.step (st : PIDState) (poll : Poll) : PIDState × ℝ :=
  let s1 := if detect_boundary poll st.prev then ({ st with integral := 0, prev_error := 0 } : PIDState) else st
  let s2 : PIDState := { s1 with prev := some poll }
  let dev := weekly_deviation poll
  let tgt := session_target dev
  if poll.sr ≤ 0 then (s2, 0)
  else
    let elapsed := SESSION_MIN - poll.sr
    let expected_su := tgt * elapsed / SESSION_MIN
    let error := (expected_su - poll.su) / max tgt 1
    let integral' := max (-5) (min 5 (s2.integral + error * POLL_INTERVAL))
    let derivative := (error - s2.prev_error) / POLL_INTERVAL
    let output := 1.5 * error + 0.005 * integral' + 2 * derivative
    (⟨some poll, integral', error⟩, max (-1) (min 1 (-output)))

/-- State of `MultiBurnStep` (also the shape of `TripleBlendStep`). -/
structure PollsState where
  prev : Option Poll
  session_polls : List Poll

def PollsState.init : PollsState := ⟨none, []⟩

/-- Boundary reset + append, shared by `MultiBurnStep` and `TripleBlendStep`. -/
def PollsState.update (st : PollsState) (poll : Poll) : PollsState :=
  let s1 := if detect_boundary poll st.prev then ({ st with session_polls := [] } : PollsState) else st
  ⟨some poll, poll :: s1.session_polls⟩

/-- The `for sp in self.session_polls` scan of `MultiBurnStep.step`: the
session usage of the chronologically last poll at or before `t_start`
(`chron` is the session polls in chronological order). -/
def su_at_start (t_start : ℝ) (chron : List Poll) : ℝ :=
  chron.foldl (fun acc sp => if sp.t ≤ t_start then sp.su else acc) 0

/-- The window loop of `MultiBurnStep.step`. -/
def best_burn_signal (poll : Poll) (tgt elapsed : ℝ) (chron : List Poll) : ℝ :=
  [30, 90, elapsed].foldl (fun best_signal w =>
    if w > elapsed ∨ w < POLL_INTERVAL then best_signal
    else
      let t_start := poll.t - w
      let actual_usage := poll.su - su_at_start t_start chron
      let expected_usage := tgt * (w / SESSION_MIN)
      if expected_usage < 1e-6 then best_signal
      else
        let burn_rate := actual_usage / expected_usage
        let burn_signal := Real.tanh (1.5 * (burn_rate - 1))
        if |burn_signal| > |best_signal| then burn_signal else best_signal) 0

/-- `MultiBurnStep.step`. -/
def MultiBurnStep.step (st : PollsState) (poll : Poll) : PollsState × ℝ :=
  let s' := st.update poll
  let dev := weekly_deviation poll
  let tgt := session_target dev
  if poll.sr ≤ 0 then (s', 0)
  else
    let elapsed := SESSION_MIN - poll.sr
    if elapsed < 5 then (s', 0)
    else
      let s_frac := poll.sr / SESSION_MIN
      let best := best_burn_signal poll tgt elapsed s'.session_polls.reverse
      let cal := 0.7 * best + 0.3 * (1 - s_frac) * (-dev)
      (s', max (-1) (min 1 cal))

/-- State of `PACEStep` (also the shape of `GradientStep`). -/
structure PaceState where
  prev : Option Poll
  session_polls : List Poll
  lam : ℝ
  cum_grad_sq : ℝ

def PaceState.init : PaceState := ⟨none, [], 1, 0⟩

/-- `PACEStep.step`. -/
def PACEStep.step (st : PaceState) (poll : Poll) : PaceState × ℝ :=
  let s1 := if detect_boundary poll st.prev
            then ({ st with session_polls := [], lam := 1, cum_grad_sq := 0 } : PaceState) else st
  let s2 : PaceState := { s1 with prev := some poll, session_polls := poll :: s1.session_polls }
  let dev := weekly_deviation poll
  let tgt := session_target dev
  if poll.sr ≤ 0 then (s2, 0)
  else
    let elapsed := SESSION_MIN - poll.sr
    if elapsed < 5 then (s2, 0)
    else
      let velocity := match ema_velocity s2.session_polls with
                      | none => poll.su / max elapsed 0.1
                      | some v => v
      let vel := max velocity 0
      let target_rate := max ((tgt - poll.su) / max poll.sr 0.1) 0
      let gradient := vel - target_rate
      let cum' := s2.cum_grad_sq + gradient * gradient
      let step' := 1 / (1 + Real.sqrt cum')
      let lam' := max 0.01 (s2.lam + step' * gradient)
      ({ s2 with lam := lam', cum_grad_sq := cum' }, max (-1) (min 1 (lam' - 1)))

/-- `GradientStep.step` (same state shape as `PACEStep`, `lam` plays `m`). -/
def GradientStep.step (st : PaceState) (poll : Poll) : PaceState × ℝ :=
  let s1 := if detect_boundary poll st.prev
            then ({ st with session_polls := [], lam := 1, cum_grad_sq := 0 } : PaceState) else st
  let s2 : PaceState := { s1 with prev := some poll, session_polls := poll :: s1.session_polls }
  let dev := weekly_deviation poll
  let tgt := session_target dev
  if poll.sr ≤ 0 then (s2, 0)
  else
    let elapsed := SESSION_MIN - poll.sr
    if elapsed < 5 then (s2, 0)
    else
      let velocity := match ema_velocity s2.session_polls with
                      | none => poll.su / max elapsed 0.1
                      | some v => v
      let vel := max velocity 0
      let target_rate := max ((tgt - poll.su) / max poll.sr 0.1) 0
      let gradient := vel - target_rate
      let cum' := s2.cum_grad_sq + gradient * gradient
      let eta := 0.5 / (1 + Real.sqrt cum')
      let m' := max 0.01 (s2.lam + eta * gradient)
      ({ s2 with lam := m', cum_grad_sq := cum' }, max (-1) (min 1 (Real.tanh (2 * (m' - 1)))))

/-- State of `CascadeStep`. -/
structure CascadeState where
  prev : Option Poll
  session_polls : List Poll
  outer_integral : ℝ
  dynamic_target : ℝ
  poll_counter : ℕ

def CascadeState.init : CascadeState := ⟨none, [], 0, 100, 0⟩

/-- The signal computation of `CascadeStep.step` (against the dynamic
target maintained by the outer loop). -/
def Cascade_signal (poll : Poll) (dynamic_target : ℝ) (session_polls : List Poll) : ℝ :=
  if poll.sr ≤ 0 then 0
  else
    let tau := max poll.sr 0.1
    let optimal := min (max ((dynamic_target - poll.su) / tau) 0) (max ((100 - poll.su) / tau) 0)
    let elapsed := SESSION_MIN - poll.sr
    let finish : ℝ → ℝ := fun velocity =>
      let vel := max velocity 0
      if optimal < 1e-6 then (if vel > 1e-6 then 1 else 0)
      else max (-1) (min 1 ((vel - optimal) / optimal))
    match ema_velocity session_polls with
    | none => if elapsed < 5 then 0 else finish (poll.su / max elapsed 0.1)
    | some v => finish v

/-- `CascadeStep.step`. -/
def CascadeStep.step (st : CascadeState) (poll : Poll) : CascadeState × ℝ :=
  let s1 := if detect_boundary poll st.prev
            then ({ st with session_polls := [], poll_counter := 0 } : CascadeState) else st
  let s2 : CascadeState :=
    { s1 with prev := some poll, session_polls := poll :: s1.session_polls,
              poll_counter := s1.poll_counter + 1 }
  let s3 :=
    if s2.poll_counter % 6 = 0 then
      let we := weekly_expected poll
      let error := (we - poll.wu) / 100
      let oi := max (-5) (min 5 (s2.outer_integral + error))
      ({ s2 with outer_integral := oi,
                 dynamic_target := max 10 (min 100 (100 * (1 + 0.8 * error + 0.003 * oi))) } : CascadeState)
    else s2
  (s3, Cascade_signal poll s3.dynamic_target s3.session_polls)

/-- The signal computation of `TripleBlendStep.step`. -/
def TriBlend_signal (poll : Poll) (session_polls : List Poll) : ℝ :=
  let dev := weekly_deviation poll
  let tgt := session_target dev
  if poll.sr ≤ 0 then 0
  else
    let elapsed := SESSION_MIN - poll.sr
    let s_frac := poll.sr / SESSION_MIN
    let expected_su := tgt * (elapsed / SESSION_MIN)
    let positional := max (-1) (min 1 ((poll.su - expected_su) / max tgt 1))
    let optimal := (tgt - poll.su) / max poll.sr 0.1
    let velocity_sig :=
      match ema_velocity session_polls with
      | some v => if optimal > 1e-6 then max (-1) (min 1 ((v - optimal) / optimal)) else 0
      | none => 0
    let budget_sig := -dev
    let w : ℝ × ℝ × ℝ :=
      if elapsed < 30 then (0.2, 0.6, 0.2)
      else if s_frac > 0.5 then (0.3, 0.5, 0.2)
      else (0.2, 0.2, 0.6)
    max (-1) (min 1 (w.1 * positional + w.2.1 * velocity_sig + w.2.2 * budget_sig))

/-- `TripleBlendStep.step`. -/
def TripleBlendStep.step (st : PollsState) (poll : Poll) : PollsState × ℝ :=
  let s' := st.update poll
  (s', TriBlend_signal poll s'.session_polls)

/-- Hysteresis zone of `PBPipelineStep`. -/
inductive Zone | ok | fast | slow
deriving DecidableEq

/-- State of `PBPipelineStep`. -/
structure PBPipeState where
  prev : Option Poll
  zone : Zone
  prev_output : ℝ

def PBPipeState.init : PBPipeState := ⟨none, Zone.ok, 0⟩

/-- The raw (pre-conditioning) Path-B signal inside `PBPipelineStep.step`. -/
def PBPipe_raw (poll : Poll) : ℝ :=
  let dev := weekly_deviation poll
  let tgt := session_target dev
  let elapsed := SESSION_MIN - poll.sr
  let expected_su := tgt * (elapsed / SESSION_MIN)
  let session_err := (poll.su - expected_su) / max tgt 1
  let s_frac := poll.sr / SESSION_MIN
  max (-1) (min 1 (s_frac * session_err + (1 - s_frac) * (-dev)))

/-- The body of `PBPipelineStep.step` after the session-boundary reset
(`s1` is the state after the possible reset). -/
def PBPipe_core (s1 : PBPipeState) (poll : Poll) : PBPipeState × ℝ :=
  let s2 : PBPipeState := { s1 with prev := some poll }
  if poll.sr ≤ 0 then (s2, 0)
  else if SESSION_MIN - poll.sr < 5 then (s2, 0)
  else
    let raw := PBPipe_raw poll
    let dz := if |raw| < 0.08 then 0
              else (if raw > 0 then (1:ℝ) else -1) * ((|raw| - 0.08) / 0.92)
    let (zone', hz) :=
      match s2.zone with
      | Zone.ok =>
        if dz > 0.15 then (Zone.fast, dz)
        else if dz < -0.15 then (Zone.slow, dz)
        else (Zone.ok, 0)
      | Zone.fast => if dz < 0.05 then (Zone.ok, 0) else (Zone.fast, dz)
      | Zone.slow => if dz > -0.05 then (Zone.ok, 0) else (Zone.slow, dz)
    let output := 0.15 * hz + 0.85 * s2.prev_output
    ({ s2 with zone := zone', prev_output := output }, max (-1) (min 1 output))

/-- `PBPipelineStep.step`. -/
def PBPipelineStep.step (st : PBPipeState) (poll : Poll) : PBPipeState × ℝ :=
  PBPipe_core
    (if detect_boundary poll st.prev
     then ({ st with zone := Zone.ok, prev_output := 0 } : PBPipeState) else st) poll

/-- The signal computation of `SoftThrottleStep.step`. -/
def SoftThrottle_signal (poll : Poll) (ema : Option ℝ) : ℝ :=
  let dev := weekly_deviation poll
  let tgt := session_target dev
  if poll.sr ≤ 0 then 0
  else
    let tau := max poll.sr 0.1
    let optimal := min (max ((tgt - poll.su) / tau) 0) (max ((100 - poll.su) / tau) 0)
    let elapsed := SESSION_MIN - poll.sr
    let finish : ℝ → ℝ := fun velocity =>
      let vel := max velocity 0
      if optimal < 1e-6 then (if vel > 1e-6 then 1 else 0)
      else max (-1) (min 1 (Real.tanh (1.5 * (vel / optimal - 1))))
    match ema with
    | none => if elapsed < 5 then 0 else finish (poll.su / max elapsed 0.1)
    | some v => finish v

/-- `SoftThrottleStep.step`. -/
def SoftThrottleStep.step (s : EmaState) (poll : Poll) : EmaState × ℝ :=
  let s' := s.update poll
  (s', SoftThrottle_signal poll s'.ema)

-- ── AdaptiveStep (step_algorithms.py) ─────────────────────────────────

namespace AdaptiveStep

def PRIOR_GAIN : ℝ := 0.30
def PRIOR_DZ : ℝ := 0.25
def GAIN_FLOOR : ℝ := 0.01
def GAIN_CAP : ℝ := 1.5
def WARMUP_N : ℝ := 20
def ALPHA_GAIN : ℝ := 0.08
def ALPHA_BL : ℝ := 0.1
def ALPHA_VAR : ℝ := 0.05
def MAX_DELTA_C : ℝ := 0.2
def NOISE_FLOOR : ℝ := 0.005
def DZ_STEP : ℝ := 0.005
def DZ_MIN : ℝ := 0.05
def DZ_MAX : ℝ := 0.8
def DZ_WINDOW : ℝ := 0.12
def SIGNAL_CAP : ℝ := 0.85
def MAX_DELAY : ℕ := 8
def DELAY_BUF_SIZE : ℕ := 60

end AdaptiveStep

/-- State of `AdaptiveStep`: the session-scoped fields (`_init_session`)
followed by the week-persistent learned fields (`_init_learned`).
`signal_history` and `delay_buf` are newest-first. -/
structure AdaptiveState where
  session_polls : List Poll
  prev : Option Poll
  ema : Option ℝ
  prev_signal : ℝ
  signal_history : List ℝ
  gain : ℝ
  dead_zone : ℝ
  confidence : ℝ
  baseline_rate : ℝ
  gain_obs_count : ℕ
  gain_variance : ℝ
  estimated_delay : ℕ
  delay_buf : List (ℝ × List ℝ)

namespace AdaptiveStep

/-- `AdaptiveStep._init_session`. -/
def init_session (s : AdaptiveState) : AdaptiveState :=
  { s with session_polls := [], prev := none, ema := none,
           prev_signal := 0, signal_history := [] }

/-- `AdaptiveStep.__init__`. -/
def init : AdaptiveState :=
  ⟨[], none, none, 0, [], PRIOR_GAIN, PRIOR_DZ, 0, 0.3, 0, 0.1, 1, []⟩

/-- `AdaptiveStep.reset`: session state cleared, learned params persist. -/
def reset (s : AdaptiveState) : AdaptiveState := init_session s

/-- `AdaptiveStep._pace_error` (the EMA is the only state it reads). -/
def pace_error (ema : Option ℝ) (poll : Poll) : ℝ :=
  let dev := weekly_deviation poll
  let tgt := session_target dev
  if poll.sr ≤ 0 then 0
  else
    let elapsed := SESSION_MIN - poll.sr
    let tau := max poll.sr 0.1
    let optimal := min (max ((tgt - poll.su) / tau) 0) (max ((100 - poll.su) / tau) 0)
    match ema with
    | none => if elapsed < 5 then 0 else max (poll.su / max elapsed 0.1) 0 - optimal
    | some v => max v 0 - optimal

/-- `AdaptiveStep._to_signal`. -/
def to_signal (s : AdaptiveState) (error : ℝ) : ℝ :=
  let raw :=
    if |error| < NOISE_FLOOR then 0
    else
      let eff_gain := s.confidence * s.gain + (1 - s.confidence) * PRIOR_GAIN
      let r := error / max (s.baseline_rate * eff_gain) 0.001
      if 0 < |r| ∧ |r| < s.dead_zone * 1.1 then
        (if r > 0 then (1:ℝ) else -1) * (s.dead_zone * 1.1)
      else r
  let delta := max (-MAX_DELTA_C) (min MAX_DELTA_C (raw - s.prev_signal))
  max (-SIGNAL_CAP) (min SIGNAL_CAP (s.prev_signal + delta))

/-- The buffer entries whose signal at lag index `d_idx` is meaningful
(the `if abs(s) > 0.1` filter inside `_estimate_delay`'s inner loop). -/
def lagQual (buf : List (ℝ × List ℝ)) (d_idx : ℕ) : List (ℝ × List ℝ) :=
  buf.filter (fun e => |e.2.getD d_idx 0| > 0.1)

/-- The count `n` of qualifying entries at lag index `d_idx`. -/
def lagCount (buf : List (ℝ × List ℝ)) (d_idx : ℕ) : ℕ :=
  (lagQual buf d_idx).length

/-- The per-lag score of `_estimate_delay`: the average of
`-(rate - mean_rate) * signal_at_lag` over the qualifying entries. -/
def lagScore (buf : List (ℝ × List ℝ)) (mean_rate : ℝ) (d_idx : ℕ) : ℝ :=
  ((lagQual buf d_idx).map (fun e => -(e.1 - mean_rate) * e.2.getD d_idx 0)).sum
    / (lagCount buf d_idx)

/-- `score > best_score`, with `none` standing for the initial `-inf`. -/
def scoreBeats (score : ℝ) : Option ℝ → Prop
  | none => True
  | some b => score > b

instance (score : ℝ) (o : Option ℝ) : Decidable (scoreBeats score o) := by
  unfold scoreBeats
  cases o <;> infer_instance

/-- `mean_rate` of `_estimate_delay`: the average of the buffered rates. -/
def mean_rate (buf : List (ℝ × List ℝ)) : ℝ :=
  (buf.map Prod.fst).sum / (buf.map Prod.fst).length

/-- The `for d_idx in range(self.MAX_DELAY)` loop of
`AdaptiveStep._estimate_delay`. -/
def delay_loop (buf : List (ℝ × List ℝ)) (mr : ℝ) :
    List ℕ → ℕ × Option ℝ → ℕ × Option ℝ
  | [], best => best
  | d_idx :: rest, best =>
    let best' :=
      if 5 ≤ lagCount buf d_idx then
        if scoreBeats (lagScore buf mr d_idx) best.2 then
          (d_idx + 1, some (lagScore buf mr d_idx))
        else best
      else best
    delay_loop buf mr rest best'

/-- `AdaptiveStep._estimate_delay`. -/
def estimate_delay (s : AdaptiveState) : AdaptiveState :=
  if s.delay_buf.length < 20 then s
  else
    let result := delay_loop s.delay_buf (mean_rate s.delay_buf) (List.range MAX_DELAY)
                    (s.estimated_delay, none)
    match result.2 with
    | some best_score => if best_score > 0 then { s with estimated_delay := result.1 } else s
    | none => s

/-- The dead-zone probe update at the end of `AdaptiveStep._learn`
(the fall-through reached both after the gain branch and when the gain
branch was not entered). -/
def dz_check (past_signal observed_rate : ℝ) (s2 : AdaptiveState) : AdaptiveState :=
  if |(|past_signal|) - s2.dead_zone| < DZ_WINDOW then
    let response := observed_rate - s2.baseline_rate
    let responded := response * past_signal < 0 ∧ |response| > 0.01
    if responded then
      { s2 with dead_zone := max DZ_MIN (s2.dead_zone - DZ_STEP) }
    else
      { s2 with dead_zone := min DZ_MAX (s2.dead_zone + DZ_STEP) }
  else s2

/-- The part of `AdaptiveStep._learn` following the delay re-estimation:
baseline / gain / dead-zone updates driven by `signal_history[-estimated_delay]`
(`s'` is the state whose `delay_buf` and `estimated_delay` were just updated). -/
def learn_update (s' : AdaptiveState) (observed_rate : ℝ) : AdaptiveState :=
  let past_signal := s'.signal_history.getD (s'.estimated_delay - 1) 0
  if |past_signal| < s'.dead_zone * 0.5 then
    { s' with baseline_rate :=
        (1 - ALPHA_BL) * s'.baseline_rate + ALPHA_BL * observed_rate }
  else
    if |past_signal| > s'.dead_zone then
      let response := observed_rate - s'.baseline_rate
      if |response| < 0.01 then s'
      else
        let bl := max |s'.baseline_rate| 0.01
        let obs_gain := max GAIN_FLOOR (min GAIN_CAP (-response / (bl * past_signal)))
        let g := max GAIN_FLOOR ((1 - ALPHA_GAIN) * s'.gain + ALPHA_GAIN * obs_gain)
        let cnt := s'.gain_obs_count + 1
        let diff_sq := (obs_gain - g) ^ 2
        let v := (1 - ALPHA_VAR) * s'.gain_variance + ALPHA_VAR * diff_sq
        let warmup := min 1 ((cnt : ℝ) / WARMUP_N)
        let stability := 1 / (1 + v)
        dz_check past_signal observed_rate
          { s' with gain := g, gain_obs_count := cnt, gain_variance := v,
                    confidence := warmup * stability }
    else dz_check past_signal observed_rate s'

/-- `AdaptiveStep._learn` (called after the poll was appended, so
`session_polls[-2]` is the second entry of the newest-first list). -/
def learn (s : AdaptiveState) (poll : Poll) : AdaptiveState :=
  if s.session_polls.length < 3 then s
  else if SESSION_MIN - poll.sr < 5 then s
  else
    match s.session_polls with
    | [] => s
    | [_] => s
    | _ :: pp :: _ =>
      let dt := poll.t - pp.t
      if dt ≤ 0 ∨ dt > GAP_THRESHOLD then s
      else
        let observed_rate := (poll.su - pp.su) / dt
        if s.signal_history.length < MAX_DELAY then s
        else
          let sigs := (List.range MAX_DELAY).map (fun i => s.signal_history.getD i 0)
          let buf1 := (observed_rate, sigs) :: s.delay_buf
          let buf := if DELAY_BUF_SIZE < buf1.length then buf1.dropLast else buf1
          learn_update (estimate_delay { s with delay_buf := buf }) observed_rate

/-- `AdaptiveStep.step`. -/
def step (s : AdaptiveState) (poll : Poll) : AdaptiveState × ℝ :=
  let s1 := if detect_boundary poll s.prev then init_session s else s
  let sp := poll :: s1.session_polls
  let ema' :=
    match s1.session_polls with
    | [] => s1.ema
    | pp :: _ =>
      let dt := poll.t - pp.t
      if 0 < dt ∧ dt ≤ GAP_THRESHOLD then
        let iv := (poll.su - pp.su) / dt
        some (match s1.ema with
              | none => iv
              | some e => EMA_ALPHA * iv + (1 - EMA_ALPHA) * e)
      else s1.ema
  let s2 : AdaptiveState := { s1 with session_polls := sp, ema := ema', prev := some poll }
  let s3 := learn s2 poll
  let error := pace_error ema' poll
  let signal := to_signal s3 error
  ({ s3 with signal_history := signal :: s3.signal_history, prev_signal := signal }, signal)

end AdaptiveStep

-- ── Clamp bounds for the calibrator family ────────────────────────────

theorem clamp_mem (lo hi x : ℝ) (h : lo ≤ hi) :
    lo ≤ max lo (min hi x) ∧ max lo (min hi x) ≤ hi :=
  ⟨le_max_left _ _, max_le h (min_le_left _ _)⟩

theorem rate_calibrator_bounds (poll : Poll) (v : Option ℝ) :
    -1 ≤ rate_calibrator poll v ∧ rate_calibrator poll v ≤ 1 := by
  unfold rate_calibrator
  cases v <;> dsimp only <;> split_ifs <;>
    first
      | exact clamp_mem (-1) 1 _ (by norm_num)
      | exact ⟨by norm_num, by norm_num⟩

theorem PathA_signal_bounds (poll : Poll) (ema : Option ℝ) :
    -1 ≤ PathA_signal poll ema ∧ PathA_signal poll ema ≤ 1 := by
  unfold PathA_signal
  cases ema <;> dsimp only <;> split_ifs <;>
    first
      | exact clamp_mem (-1) 1 _ (by norm_num)
      | exact ⟨by norm_num, by norm_num⟩

theorem PathB_signal_bounds (poll : Poll) :
    -1 ≤ PathBStep.step poll ∧ PathBStep.step poll ≤ 1 := by
  unfold PathBStep.step
  dsimp only
  split_ifs <;>
    first
      | exact clamp_mem (-1) 1 _ (by norm_num)
      | exact ⟨by norm_num, by norm_num⟩

theorem SoftThrottle_signal_bounds (poll : Poll) (ema : Option ℝ) :
    -1 ≤ SoftThrottle_signal poll ema ∧ SoftThrottle_signal poll ema ≤ 1 := by
  unfold SoftThrottle_signal
  cases ema <;> dsimp only <;> split_ifs <;>
    first
      | exact clamp_mem (-1) 1 _ (by norm_num)
      | exact ⟨by norm_num, by norm_num⟩

theorem TriBlend_signal_bounds (poll : Poll) (sp : List Poll) :
    -1 ≤ TriBlend_signal poll sp ∧ TriBlend_signal poll sp ≤ 1 := by
  unfold TriBlend_signal
  dsimp only
  split_ifs <;>
    first
      | exact clamp_mem (-1) 1 _ (by norm_num)
      | exact ⟨by norm_num, by norm_num⟩

theorem AdaptiveStep.to_signal_bounds (s : AdaptiveState) (e : ℝ) :
    -SIGNAL_CAP ≤ to_signal s e ∧ to_signal s e ≤ SIGNAL_CAP := by
  unfold to_signal
  dsimp only
  exact clamp_mem (-SIGNAL_CAP) SIGNAL_CAP _ (by norm_num [SIGNAL_CAP])

theorem CurrentStep_step_bounds (s : EmaState) (poll : Poll) :
    -1 ≤ (CurrentStep.step s poll).2 ∧ (CurrentStep.step s poll).2 ≤ 1 := by
  unfold CurrentStep.step
  exact rate_calibrator_bounds _ _

theorem HoltStep_step_bounds (st : HoltState) (poll : Poll) :
    -1 ≤ (HoltStep.step st poll).2 ∧ (HoltStep.step st poll).2 ≤ 1 := by
  unfold HoltStep.step
  dsimp only
  repeat' split
  all_goals try dsimp only
  all_goals exact rate_calibrator_bounds _ _

theorem AlphaBetaStep_step_bounds (st : AlphaBetaState) (poll : Poll) :
    -1 ≤ (AlphaBetaStep.step st poll).2 ∧ (AlphaBetaStep.step st poll).2 ≤ 1 := by
  unfold AlphaBetaStep.step
  dsimp only
  repeat' split
  all_goals try dsimp only
  all_goals exact rate_calibrator_bounds _ _

theorem PIDStep_step_bounds (st : PIDState) (poll : Poll) :
    -1 ≤ (PIDStep.step st poll).2 ∧ (PIDStep.step st poll).2 ≤ 1 := by
  unfold PIDStep.step
  dsimp only
  split_ifs <;>
    first
      | exact clamp_mem (-1) 1 _ (by norm_num)
      | exact ⟨by norm_num, by norm_num⟩

theorem MultiBurnStep_step_bounds (st : PollsState) (poll : Poll) :
    -1 ≤ (MultiBurnStep.step st poll).2 ∧ (MultiBurnStep.step st poll).2 ≤ 1 := by
  unfold MultiBurnStep.step
  dsimp only
  split_ifs <;>
    first
      | exact clamp_mem (-1) 1 _ (by norm_num)
      | exact ⟨by norm_num, by norm_num⟩

theorem PACEStep_step_bounds (st : PaceState) (poll : Poll) :
    -1 ≤ (PACEStep.step st poll).2 ∧ (PACEStep.step st poll).2 ≤ 1 := by
  unfold PACEStep.step
  dsimp only
  split_ifs <;>
    first
      | exact clamp_mem (-1) 1 _ (by norm_num)
      | exact ⟨by norm_num, by norm_num⟩

theorem GradientStep_step_bounds (st : PaceState) (poll : Poll) :
    -1 ≤ (GradientStep.step st poll).2 ∧ (GradientStep.step st poll).2 ≤ 1 := by
  unfold GradientStep.step
  dsimp only
  split_ifs <;>
    first
      | exact clamp_mem (-1) 1 _ (by norm_num)
      | exact ⟨by norm_num, by norm_num⟩

theorem Cascade_signal_bounds (poll : Poll) (dt : ℝ) (sp : List Poll) :
    -1 ≤ Cascade_signal poll dt sp ∧ Cascade_signal poll dt sp ≤ 1 := by
  unfold Cascade_signal
  dsimp only
  repeat' split
  all_goals
    first
      | exact clamp_mem (-1) 1 _ (by norm_num)
      | exact ⟨by norm_num, by norm_num⟩

theorem CascadeStep_step_bounds (st : CascadeState) (poll : Poll) :
    -1 ≤ (CascadeStep.step st poll).2 ∧ (CascadeStep.step st poll).2 ≤ 1 := by
  unfold CascadeStep.step
  dsimp only
  exact Cascade_signal_bounds _ _ _

theorem TripleBlendStep_step_bounds (st : PollsState) (poll : Poll) :
    -1 ≤ (TripleBlendStep.step st poll).2 ∧ (TripleBlendStep.step st poll).2 ≤ 1 := by
  unfold TripleBlendStep.step
  exact TriBlend_signal_bounds _ _

theorem PBPipe_core_bounds (s1 : PBPipeState) (poll : Poll) :
    -1 ≤ (PBPipe_core s1 poll).2 ∧ (PBPipe_core s1 poll).2 ≤ 1 := by
  unfold PBPipe_core
  dsimp only
  repeat' split
  all_goals try dsimp only
  all_goals
    first
      | exact clamp_mem (-1) 1 _ (by norm_num)
      | exact ⟨by norm_num, by norm_num⟩

theorem PBPipelineStep_step_bounds (st : PBPipeState) (poll : Poll) :
    -1 ≤ (PBPipelineStep.step st poll).2 ∧ (PBPipelineStep.step st poll).2 ≤ 1 := by
  unfold PBPipelineStep.step
  exact PBPipe_core_bounds _ _

theorem SoftThrottleStep_step_bounds (s : EmaState) (poll : Poll) :
    -1 ≤ (SoftThrottleStep.step s poll).2 ∧ (SoftThrottleStep.step s poll).2 ≤ 1 := by
  unfold SoftThrottleStep.step
  exact SoftThrottle_signal_bounds _ _

theorem AdaptiveStep_step_bounds (s : AdaptiveState) (poll : Poll) :
    -AdaptiveStep.SIGNAL_CAP ≤ (AdaptiveStep.step s poll).2 ∧
      (AdaptiveStep.step s poll).2 ≤ AdaptiveStep.SIGNAL_CAP := by
  unfold AdaptiveStep.step
  dsimp only
  exact AdaptiveStep.to_signal_bounds _ _

theorem PathAStep_step_bounds (s : EmaState) (poll : Poll) :
    -1 ≤ (PathAStep.step s poll).2 ∧ (PathAStep.step s poll).2 ≤ 1 := by
  unfold PathAStep.step
  exact PathA_signal_bounds _ _

/-- C1: for every poll and every internal state (so in particular every
reachable one) of each of the 15 calibrator variants, the `step()` output
lies in [-1, 1]; for the Adaptive variant it lies in [-0.85, 0.85]. -/
theorem signal_boundedness :
    (∀ poll : Poll, -1 ≤ NoFeedbackStep.step poll ∧ NoFeedbackStep.step poll ≤ 1) ∧
    (∀ (s : EmaState) (poll : Poll),
      -1 ≤ (CurrentStep.step s poll).2 ∧ (CurrentStep.step s poll).2 ≤ 1) ∧
    (∀ (s : EmaState) (poll : Poll),
      -1 ≤ (PathAStep.step s poll).2 ∧ (PathAStep.step s poll).2 ≤ 1) ∧
    (∀ poll : Poll, -1 ≤ PathBStep.step poll ∧ PathBStep.step poll ≤ 1) ∧
    (∀ (s : HoltState) (poll : Poll),
      -1 ≤ (HoltStep.step s poll).2 ∧ (HoltStep.step s poll).2 ≤ 1) ∧
    (∀ (s : AlphaBetaState) (poll : Poll),
      -1 ≤ (AlphaBetaStep.step s poll).2 ∧ (AlphaBetaStep.step s poll).2 ≤ 1) ∧
    (∀ (s : PIDState) (poll : Poll),
      -1 ≤ (PIDStep.step s poll).2 ∧ (PIDStep.step s poll).2 ≤ 1) ∧
    (∀ (s : PollsState) (poll : Poll),
      -1 ≤ (MultiBurnStep.step s poll).2 ∧ (MultiBurnStep.step s poll).2 ≤ 1) ∧
    (∀ (s : PaceState) (poll : Poll),
      -1 ≤ (PACEStep.step s poll).2 ∧ (PACEStep.step s poll).2 ≤ 1) ∧
    (∀ (s : PaceState) (poll : Poll),
      -1 ≤ (GradientStep.step s poll).2 ∧ (GradientStep.step s poll).2 ≤ 1) ∧
    (∀ (s : CascadeState) (poll : Poll),
      -1 ≤ (CascadeStep.step s poll).2 ∧ (CascadeStep.step s poll).2 ≤ 1) ∧
    (∀ (s : PollsState) (poll : Poll),
      -1 ≤ (TripleBlendStep.step s poll).2 ∧ (TripleBlendStep.step s poll).2 ≤ 1) ∧
    (∀ (s : PBPipeState) (poll : Poll),
      -1 ≤ (PBPipelineStep.step s poll).2 ∧ (PBPipelineStep.step s poll).2 ≤ 1) ∧
    (∀ (s : EmaState) (poll : Poll),
      -1 ≤ (SoftThrottleStep.step s poll).2 ∧ (SoftThrottleStep.step s poll).2 ≤ 1) ∧
    (∀ (s : AdaptiveState) (poll : Poll),
      -0.85 ≤ (AdaptiveStep.step s poll).2 ∧ (AdaptiveStep.step s poll).2 ≤ 0.85) := by
  refine ⟨fun poll => ⟨by norm_num [NoFeedbackStep.step], by norm_num [NoFeedbackStep.step]⟩,
    CurrentStep_step_bounds, PathAStep_step_bounds, PathB_signal_bounds,
    HoltStep_step_bounds, AlphaBetaStep_step_bounds, PIDStep_step_bounds,
    MultiBurnStep_step_bounds, PACEStep_step_bounds, GradientStep_step_bounds,
    CascadeStep_step_bounds, TripleBlendStep_step_bounds, PBPipelineStep_step_bounds,
    SoftThrottleStep_step_bounds, fun s poll => ?_⟩
  have h := AdaptiveStep_step_bounds s poll
  unfold AdaptiveStep.SIGNAL_CAP at h
  exact_mod_cast h

-- ── Adaptive rate limiting (C5) ───────────────────────────────────────

theorem clamp_step_bound (p delta c : ℝ) (hp : |p| ≤ c) (hd : |delta| ≤ 0.2) :
    |max (-c) (min c (p + delta)) - p| ≤ 0.2 := by
  rw [abs_le] at *
  constructor
  · have h1 : p - 0.2 ≤ min c (p + delta) := le_min (by linarith) (by linarith)
    have h2 : min c (p + delta) ≤ max (-c) (min c (p + delta)) := le_max_right _ _
    linarith
  · have h1 : min c (p + delta) ≤ p + 0.2 := le_trans (min_le_right _ _) (by linarith)
    have h2 : max (-c) (min c (p + delta)) ≤ p + 0.2 := max_le (by linarith) h1
    linarith

theorem clamped_delta_bound (p raw : ℝ) (hp : |p| ≤ 0.85) :
    |max (-(0.85:ℝ)) (min 0.85 (p + max (-(0.2:ℝ)) (min 0.2 (raw - p)))) - p| ≤ 0.2 := by
  apply clamp_step_bound p _ 0.85 hp
  rw [abs_le]
  exact ⟨le_max_left _ _, max_le (by norm_num) (min_le_left _ _)⟩

theorem AdaptiveStep.to_signal_rate_limit (s : AdaptiveState) (e : ℝ)
    (h : |s.prev_signal| ≤ 0.85) :
    |to_signal s e - s.prev_signal| ≤ 0.2 := by
  unfold to_signal MAX_DELTA_C SIGNAL_CAP
  dsimp only
  exact clamped_delta_bound _ _ h

theorem AdaptiveStep.estimate_delay_prev_signal (s : AdaptiveState) :
    (estimate_delay s).prev_signal = s.prev_signal := by
  unfold estimate_delay
  dsimp only
  repeat' split
  all_goals rfl

theorem AdaptiveStep.dz_check_prev_signal (ps r : ℝ) (s : AdaptiveState) :
    (dz_check ps r s).prev_signal = s.prev_signal := by
  unfold dz_check
  dsimp only
  repeat' split
  all_goals rfl

theorem AdaptiveStep.learn_update_prev_signal (s : AdaptiveState) (r : ℝ) :
    (learn_update s r).prev_signal = s.prev_signal := by
  unfold learn_update
  dsimp only
  repeat' split
  all_goals simp only [dz_check_prev_signal]

theorem AdaptiveStep.learn_prev_signal (s : AdaptiveState) (poll : Poll) :
    (learn s poll).prev_signal = s.prev_signal := by
  unfold learn
  dsimp only
  repeat' split
  all_goals simp only [learn_update_prev_signal, estimate_delay_prev_signal]

/-- C5: for the Adaptive calibrator, on any within-session (non-boundary)
tick taken from a state whose previous signal is within the ±0.85 cap
(true of every reachable state, since outputs are so clamped and a session
starts at 0), the new output differs from the previous tick's output by at
most 0.2 and has magnitude at most 0.85. -/
theorem adaptive_rate_limit (s : AdaptiveState) (poll : Poll)
    (hprev : |s.prev_signal| ≤ 0.85)
    (hb : detect_boundary poll s.prev = false) :
    |(AdaptiveStep.step s poll).2 - s.prev_signal| ≤ 0.2 ∧
      |(AdaptiveStep.step s poll).2| ≤ 0.85 := by
  have hb' : ¬ (detect_boundary poll s.prev = true) := by simp [hb]
  have key : ∃ (s3 : AdaptiveState) (e : ℝ),
      (AdaptiveStep.step s poll).2 = AdaptiveStep.to_signal s3 e ∧
        s3.prev_signal = s.prev_signal := by
    unfold AdaptiveStep.step
    dsimp only
    rw [if_neg hb']
    exact ⟨_, _, rfl, by rw [AdaptiveStep.learn_prev_signal]⟩
  obtain ⟨s3, e, heq, hps⟩ := key
  rw [heq]
  constructor
  · have h := AdaptiveStep.to_signal_rate_limit s3 e (by rw [hps]; exact hprev)
    rw [hps] at h
    exact h
  · have h := AdaptiveStep.to_signal_bounds s3 e
    refine abs_le.mpr ?_
    constructor
    · have := h.1
      unfold AdaptiveStep.SIGNAL_CAP at this
      exact_mod_cast this
    · have := h.2
      unfold AdaptiveStep.SIGNAL_CAP at this
      exact_mod_cast this

/-- The concrete state for the C5 witness: a freshly initialised Adaptive
calibrator that has seen one poll. -/
def c5state : AdaptiveState := { AdaptiveStep.init with prev := some ⟨0, 0, 300, 0, 0⟩ }

/-- The concrete in-session poll for the C5 witness. -/
def c5poll : Poll := ⟨5, 0, 295, 0, 0⟩

theorem adaptive_rate_limit_witness :
    |c5state.prev_signal| ≤ 0.85 ∧
      detect_boundary c5poll c5state.prev = false ∧
      |(AdaptiveStep.step c5state c5poll).2 - c5state.prev_signal| ≤ 0.2 ∧
      |(AdaptiveStep.step c5state c5poll).2| ≤ 0.85 := by
  have h1 : |c5state.prev_signal| ≤ 0.85 := by
    norm_num [c5state, AdaptiveStep.init]
  have h2 : detect_boundary c5poll c5state.prev = false := by
    norm_num [c5state, c5poll, AdaptiveStep.init, detect_boundary, BOUNDARY_JUMP]
  exact ⟨h1, h2, (adaptive_rate_limit c5state c5poll h1 h2).1,
    (adaptive_rate_limit c5state c5poll h1 h2).2⟩

-- ── Adaptive learning frame property (C6) ─────────────────────────────

/-- Equality of the week-persistent learned state of the Adaptive
calibrator (`_init_learned` fields). -/
def AdaptiveStep.learned_eq (a b : AdaptiveState) : Prop :=
  a.gain = b.gain ∧ a.dead_zone = b.dead_zone ∧ a.confidence = b.confidence ∧
  a.baseline_rate = b.baseline_rate ∧ a.gain_obs_count = b.gain_obs_count ∧
  a.gain_variance = b.gain_variance ∧ a.estimated_delay = b.estimated_delay ∧
  a.delay_buf = b.delay_buf

theorem AdaptiveStep.learned_eq_trans {a b c : AdaptiveState}
    (h1 : learned_eq a b) (h2 : learned_eq b c) : learned_eq a c := by
  unfold learned_eq at *
  obtain ⟨x1, x2, x3, x4, x5, x6, x7, x8⟩ := h1
  obtain ⟨y1, y2, y3, y4, y5, y6, y7, y8⟩ := h2
  exact ⟨x1.trans y1, x2.trans y2, x3.trans y3, x4.trans y4,
         x5.trans y5, x6.trans y6, x7.trans y7, x8.trans y8⟩

/-- `_learn` is the identity whenever any of its four early-return guards
fires. -/
theorem AdaptiveStep.learn_skip (s : AdaptiveState) (poll : Poll)
    (hcond : s.session_polls.length < 3
      ∨ SESSION_MIN - poll.sr < 5
      ∨ (∀ x pp rest, s.session_polls = x :: pp :: rest →
          (poll.t - pp.t ≤ 0 ∨ poll.t - pp.t > GAP_THRESHOLD))
      ∨ s.signal_history.length < MAX_DELAY) :
    learn s poll = s := by
  unfold learn
  rcases hcond with h1 | h2 | h3 | h4
  · rw [if_pos h1]
  · by_cases ha : s.session_polls.length < 3
    · rw [if_pos ha]
    · rw [if_neg ha, if_pos h2]
  · by_cases ha : s.session_polls.length < 3
    · rw [if_pos ha]
    · rw [if_neg ha]
      by_cases hb : SESSION_MIN - poll.sr < 5
      · rw [if_pos hb]
      · rw [if_neg hb]
        rcases hsp : s.session_polls with _ | ⟨x, _ | ⟨pp, rest⟩⟩
        · simp only [hsp]
        · simp only [hsp]
        · simp only [hsp]
          rw [if_pos (h3 x pp rest hsp)]
  · by_cases ha : s.session_polls.length < 3
    · rw [if_pos ha]
    · rw [if_neg ha]
      by_cases hb : SESSION_MIN - poll.sr < 5
      · rw [if_pos hb]
      · rw [if_neg hb]
        rcases hsp : s.session_polls with _ | ⟨x, _ | ⟨pp, rest⟩⟩
        · simp only [hsp]
        · simp only [hsp]
        · simp only [hsp]
          by_cases hc : poll.t - pp.t ≤ 0 ∨ poll.t - pp.t > GAP_THRESHOLD
          · rw [if_pos hc]
          · rw [if_neg hc, if_pos h4]

/-- The session-state update a non-boundary Adaptive step performs before
calling `_learn`. -/
def AdaptiveStep.session_update (s : AdaptiveState) (poll : Poll) : AdaptiveState :=
  { s with prev := some poll, session_polls := poll :: s.session_polls,
           ema := match s.session_polls with
                  | [] => s.ema
                  | pp :: _ =>
                    if 0 < poll.t - pp.t ∧ poll.t - pp.t ≤ GAP_THRESHOLD then
                      some (match s.ema with
                            | none => (poll.su - pp.su) / (poll.t - pp.t)
                            | some e => EMA_ALPHA * ((poll.su - pp.su) / (poll.t - pp.t))
                                          + (1 - EMA_ALPHA) * e)
                    else s.ema }

/-- On a boundary tick, `step` runs `_learn` on a state holding the single
new poll and an empty signal history, with the learned state carried over;
the write-back never touches learned state. -/
theorem AdaptiveStep.step_decomposition_boundary (s : AdaptiveState) (poll : Poll)
    (hb : detect_boundary poll s.prev = true) :
    ∃ s2 : AdaptiveState,
      s2.session_polls = [poll] ∧ s2.signal_history = [] ∧ learned_eq s2 s ∧
      learned_eq (AdaptiveStep.step s poll).1 (AdaptiveStep.learn s2 poll) := by
  refine ⟨AdaptiveStep.session_update (init_session s) poll, rfl, rfl,
    ⟨rfl, rfl, rfl, rfl, rfl, rfl, rfl, rfl⟩, ?_⟩
  unfold AdaptiveStep.step
  dsimp only
  rw [if_pos hb]
  exact ⟨rfl, rfl, rfl, rfl, rfl, rfl, rfl, rfl⟩

/-- On a non-boundary tick, `step` runs `_learn` on the session-updated
state, with the learned state untouched before and after. -/
theorem AdaptiveStep.step_decomposition_no_boundary (s : AdaptiveState) (poll : Poll)
    (hb : detect_boundary poll s.prev = false) :
    ∃ s2 : AdaptiveState,
      s2.session_polls = poll :: s.session_polls ∧
      s2.signal_history = s.signal_history ∧ learned_eq s2 s ∧
      learned_eq (AdaptiveStep.step s poll).1 (AdaptiveStep.learn s2 poll) := by
  have hb' : ¬ (detect_boundary poll s.prev = true) := by simp [hb]
  refine ⟨AdaptiveStep.session_update s poll, rfl, rfl,
    ⟨rfl, rfl, rfl, rfl, rfl, rfl, rfl, rfl⟩, ?_⟩
  unfold AdaptiveStep.step
  dsimp only
  rw [if_neg hb']
  exact ⟨rfl, rfl, rfl, rfl, rfl, rfl, rfl, rfl⟩

/-- C6: the Adaptive learning step leaves all learned state (gain,
dead zone, confidence, baseline rate, observation count, gain variance,
estimated delay, delay ring buffer) unchanged during the first 3 ticks of
a session, during the first 5 minutes of elapsed session time, and
whenever the inter-poll gap is invalid.  `hinv` is the within-session
invariant (one signal recorded per processed poll) maintained by `step`. -/
theorem adaptive_learning_frame (s : AdaptiveState) (poll : Poll)
    (hinv : s.signal_history.length = s.session_polls.length)
    (hcond : s.session_polls.length ≤ 2
      ∨ SESSION_MIN - poll.sr < 5
      ∨ (∀ pp ∈ s.session_polls.head?, poll.t - pp.t ≤ 0 ∨ poll.t - pp.t > GAP_THRESHOLD)) :
    AdaptiveStep.learned_eq (AdaptiveStep.step s poll).1 s := by
  by_cases hb : detect_boundary poll s.prev = true
  · obtain ⟨s2, hsp, hsh, hls, hstep⟩ := AdaptiveStep.step_decomposition_boundary s poll hb
    have hskip : AdaptiveStep.learn s2 poll = s2 := by
      apply AdaptiveStep.learn_skip
      left
      rw [hsp]
      simp
    rw [hskip] at hstep
    exact AdaptiveStep.learned_eq_trans hstep hls
  · have hbf : detect_boundary poll s.prev = false := by
      simpa using hb
    obtain ⟨s2, hsp, hsh, hls, hstep⟩ :=
      AdaptiveStep.step_decomposition_no_boundary s poll hbf
    have hskip : AdaptiveStep.learn s2 poll = s2 := by
      apply AdaptiveStep.learn_skip
      rcases hcond with h1 | h2 | h3
      · right; right; right
        rw [hsh, hinv]
        unfold AdaptiveStep.MAX_DELAY
        omega
      · right; left; exact h2
      · right; right; left
        intro x pp rest hx
        rw [hsp] at hx
        apply h3
        rw [List.cons.injEq] at hx
        rw [hx.2]
        rfl
    rw [hskip] at hstep
    exact AdaptiveStep.learned_eq_trans hstep hls

-- ── PBPipeline dead-zone behaviour (C8) ───────────────────────────────

/-- From a state whose held output is zero, a poll whose raw signal is in
the dead zone produces output exactly zero and keeps the held output at
zero (the hysteresis zone collapses to `ok` regardless of its value). -/
theorem PBPipe_zero_step (st : PBPipeState) (h0 : st.prev_output = 0) (p : Poll)
    (hraw : |PBPipe_raw p| < 0.08) :
    (PBPipelineStep.step st p).2 = 0 ∧ (PBPipelineStep.step st p).1.prev_output = 0 := by
  unfold PBPipelineStep.step
  have hcore : ∀ s1 : PBPipeState, s1.prev_output = 0 →
      (PBPipe_core s1 p).2 = 0 ∧ (PBPipe_core s1 p).1.prev_output = 0 := by
    intro s1 h1
    unfold PBPipe_core
    dsimp only
    by_cases hsr : p.sr ≤ 0
    · rw [if_pos hsr]
      exact ⟨rfl, h1⟩
    · rw [if_neg hsr]
      by_cases hel : SESSION_MIN - p.sr < 5
      · rw [if_pos hel]
        exact ⟨rfl, h1⟩
      · rw [if_neg hel]
        rw [if_pos hraw]
        rcases hzone : s1.zone with _ | _ | _ <;> simp only [hzone] <;>
          constructor <;> norm_num [h1]
  by_cases hb : detect_boundary p st.prev = true
  · rw [if_pos hb]
    exact hcore _ rfl
  · rw [if_neg hb]
    exact hcore _ h0

/-- C8 (amended): from any internal state whose held (smoothed) output is
zero — in particular right after a session boundary or `reset` — two
consecutive polls whose raw signals both have magnitude below 0.08 produce
outputs that are both exactly zero, regardless of sign. -/
theorem pbpipe_dead_zone_amended (st : PBPipeState) (h0 : st.prev_output = 0)
    (p1 p2 : Poll) (h1 : |PBPipe_raw p1| < 0.08) (h2 : |PBPipe_raw p2| < 0.08) :
    (PBPipelineStep.step st p1).2 = 0 ∧
      (PBPipelineStep.step (PBPipelineStep.step st p1).1 p2).2 = 0 := by
  obtain ⟨ha, hb⟩ := PBPipe_zero_step st h0 p1 h1
  exact ⟨ha, (PBPipe_zero_step _ hb p2 h2).1⟩

/-- C8 counterexample state: mid-session, hysteresis `ok`, held output 0.5. -/
def c8state : PBPipeState := ⟨some ⟨5, 0, 300, 0, 0⟩, Zone.ok, 0.5⟩

/-- First C8 counterexample poll (raw signal 0, 5 min into the session). -/
def c8poll1 : Poll := ⟨10, 5/3, 295, 0, 0⟩

/-- Second C8 counterexample poll (raw signal 0, consecutive with the first). -/
def c8poll2 : Poll := ⟨15, 10/3, 290, 0, 0⟩

/-- C8 as stated is false: from an internal state with a nonzero held
output, two consecutive polls with raw signals below 0.08 in magnitude
give outputs 0.425 and 0.36125, not zero (the output smoother keeps
decaying the held value). -/
theorem pbpipe_dead_zone_counterexample :
    |PBPipe_raw c8poll1| < 0.08 ∧ |PBPipe_raw c8poll2| < 0.08 ∧
      (PBPipelineStep.step c8state c8poll1).2 = 0.425 ∧
      (PBPipelineStep.step (PBPipelineStep.step c8state c8poll1).1 c8poll2).2 = 0.36125 := by
  have hraw1 : PBPipe_raw c8poll1 = 0 := by
    unfold PBPipe_raw weekly_deviation session_target c8poll1 SESSION_MIN
    norm_num [max_def, min_def]
  have hraw2 : PBPipe_raw c8poll2 = 0 := by
    unfold PBPipe_raw weekly_deviation session_target c8poll2 SESSION_MIN
    norm_num [max_def, min_def]
  have hraw1' := hraw1
  have hraw2' := hraw2
  unfold c8poll1 at hraw1'
  unfold c8poll2 at hraw2'
  have hstep1 : PBPipelineStep.step c8state c8poll1 =
      (⟨some c8poll1, Zone.ok, 0.425⟩, 0.425) := by
    unfold PBPipelineStep.step PBPipe_core
    simp only [c8state, c8poll1]
    norm_num [detect_boundary, BOUNDARY_JUMP, SESSION_MIN,
      hraw1', max_def, min_def]
  have hstep2 : (PBPipelineStep.step (⟨some c8poll1, Zone.ok, 0.425⟩ : PBPipeState) c8poll2).2
      = 0.36125 := by
    unfold PBPipelineStep.step PBPipe_core
    simp only [c8poll1, c8poll2]
    norm_num [detect_boundary, BOUNDARY_JUMP, SESSION_MIN,
      hraw2', max_def, min_def]
  refine ⟨by rw [hraw1]; norm_num, by rw [hraw2]; norm_num, ?_, ?_⟩
  · rw [hstep1]
  · rw [hstep1]
    exact hstep2

theorem adaptive_learning_frame_witness :
    AdaptiveStep.init.signal_history.length = AdaptiveStep.init.session_polls.length ∧
      AdaptiveStep.init.session_polls.length ≤ 2 ∧
      AdaptiveStep.learned_eq
        (AdaptiveStep.step AdaptiveStep.init ⟨0, 0, 300, 0, 0⟩).1 AdaptiveStep.init := by
  have h1 : AdaptiveStep.init.signal_history.length =
      AdaptiveStep.init.session_polls.length := rfl
  have h2 : AdaptiveStep.init.session_polls.length ≤ 2 := by
    norm_num [AdaptiveStep.init]
  exact ⟨h1, h2, adaptive_learning_frame _ _ h1 (Or.inl h2)⟩

theorem pbpipe_dead_zone_witness :
    PBPipeState.init.prev_output = 0 ∧
      |PBPipe_raw c8poll1| < 0.08 ∧ |PBPipe_raw c8poll2| < 0.08 ∧
      (PBPipelineStep.step PBPipeState.init c8poll1).2 = 0 ∧
      (PBPipelineStep.step (PBPipelineStep.step PBPipeState.init c8poll1).1 c8poll2).2 = 0 := by
  have h0 : PBPipeState.init.prev_output = 0 := rfl
  have h1 : |PBPipe_raw c8poll1| < 0.08 := by
    have h : PBPipe_raw c8poll1 = 0 := by
      unfold PBPipe_raw weekly_deviation session_target c8poll1 SESSION_MIN
      norm_num [max_def, min_def]
    rw [h]; norm_num
  have h2 : |PBPipe_raw c8poll2| < 0.08 := by
    have h : PBPipe_raw c8poll2 = 0 := by
      unfold PBPipe_raw weekly_deviation session_target c8poll2 SESSION_MIN
      norm_num [max_def, min_def]
    rw [h]; norm_num
  obtain ⟨ha, hb⟩ := pbpipe_dead_zone_amended PBPipeState.init h0 c8poll1 c8poll2 h1 h2
  exact ⟨h0, h1, h2, ha, hb⟩

-- ── Delay re-estimation (C7) ──────────────────────────────────────────

/-- Characterisation of `_estimate_delay`'s lag loop over a strictly
sorted index list: either no lag qualifies and beats the running best (and
the accumulator is returned unchanged), or the result is the smallest
qualifying lag achieving the maximal score among qualifying lags that
beat the initial accumulator. -/
theorem AdaptiveStep.delay_loop_spec (buf : List (ℝ × List ℝ)) (mr : ℝ) :
    ∀ (L : List ℕ) (best : ℕ × Option ℝ), L.Sorted (· < ·) →
      (delay_loop buf mr L best = best ∧
        ∀ d ∈ L, 5 ≤ lagCount buf d → ¬ scoreBeats (lagScore buf mr d) best.2) ∨
      (∃ d ∈ L, 5 ≤ lagCount buf d ∧
        delay_loop buf mr L best = (d + 1, some (lagScore buf mr d)) ∧
        scoreBeats (lagScore buf mr d) best.2 ∧
        (∀ d' ∈ L, 5 ≤ lagCount buf d' →
          lagScore buf mr d' ≤ lagScore buf mr d) ∧
        (∀ d' ∈ L, d' < d → 5 ≤ lagCount buf d' →
          lagScore buf mr d' < lagScore buf mr d)) := by
  intro L
  induction L with
  | nil =>
    intro best _
    left
    exact ⟨rfl, by simp⟩
  | cons d rest ih =>
    intro best hsorted
    have hdlt : ∀ d' ∈ rest, d < d' := (List.sorted_cons.mp hsorted).1
    have hst : rest.Sorted (· < ·) := (List.sorted_cons.mp hsorted).2
    simp only [delay_loop]
    by_cases hq : 5 ≤ lagCount buf d
    · by_cases hb : scoreBeats (lagScore buf mr d) best.2
      · rw [if_pos hq, if_pos hb]
        rcases ih (d + 1, some (lagScore buf mr d)) hst with
          ⟨heq, hall⟩ | ⟨d0, hd0mem, hq0, heq, hb0, hmax, hstrict⟩
        · right
          refine ⟨d, List.mem_cons_self d rest, hq, heq, hb, ?_, ?_⟩
          · intro d' hd' hq'
            rcases List.mem_cons.mp hd' with h | hmem
            · rw [h]
            · have h1 := hall d' hmem hq'
              have h2 : ¬ (lagScore buf mr d' > lagScore buf mr d) := h1
              exact not_lt.mp h2
          · intro d' hd' hlt hq'
            rcases List.mem_cons.mp hd' with h | hmem
            · rw [h] at hlt
              exact absurd hlt (lt_irrefl d)
            · exact absurd hlt (not_lt.mpr (le_of_lt (hdlt d' hmem)))
        · right
          have hscore : lagScore buf mr d < lagScore buf mr d0 := hb0
          refine ⟨d0, List.mem_cons_of_mem d hd0mem, hq0, heq, ?_, ?_, ?_⟩
          · cases hbest : best.2 with
            | none => exact trivial
            | some b =>
              rw [hbest] at hb
              have hdb : lagScore buf mr d > b := hb
              show lagScore buf mr d0 > b
              linarith
          · intro d' hd' hq'
            rcases List.mem_cons.mp hd' with h | hmem
            · rw [h]
              exact le_of_lt hscore
            · exact hmax d' hmem hq'
          · intro d' hd' hlt hq'
            rcases List.mem_cons.mp hd' with h | hmem
            · rw [h]
              exact hscore
            · exact hstrict d' hmem hlt hq'
      · rw [if_pos hq, if_neg hb]
        rcases ih best hst with
          ⟨heq, hall⟩ | ⟨d0, hd0mem, hq0, heq, hb0, hmax, hstrict⟩
        · left
          refine ⟨heq, ?_⟩
          intro d' hd' hq'
          rcases List.mem_cons.mp hd' with h | hmem
          · rw [h]
            exact hb
          · exact hall d' hmem hq'
        · right
          have hdled : lagScore buf mr d ≤ lagScore buf mr d0 := by
            cases hbest : best.2 with
            | none =>
              rw [hbest] at hb
              exact absurd trivial hb
            | some b =>
              rw [hbest] at hb hb0
              have h1 : ¬ (lagScore buf mr d > b) := hb
              have h2 : lagScore buf mr d0 > b := hb0
              have h3 := not_lt.mp h1
              linarith
          have hdltd0 : lagScore buf mr d < lagScore buf mr d0 := by
            cases hbest : best.2 with
            | none =>
              rw [hbest] at hb
              exact absurd trivial hb
            | some b =>
              rw [hbest] at hb hb0
              have h1 : ¬ (lagScore buf mr d > b) := hb
              have h2 : lagScore buf mr d0 > b := hb0
              have h3 := not_lt.mp h1
              linarith
          refine ⟨d0, List.mem_cons_of_mem d hd0mem, hq0, heq, hb0, ?_, ?_⟩
          · intro d' hd' hq'
            rcases List.mem_cons.mp hd' with h | hmem
            · rw [h]
              exact hdled
            · exact hmax d' hmem hq'
          · intro d' hd' hlt hq'
            rcases List.mem_cons.mp hd' with h | hmem
            · rw [h]
              exact hdltd0
            · exact hstrict d' hmem hlt hq'
    · rw [if_neg hq]
      rcases ih best hst with
        ⟨heq, hall⟩ | ⟨d0, hd0mem, hq0, heq, hb0, hmax, hstrict⟩
      · left
        refine ⟨heq, ?_⟩
        intro d' hd' hq'
        rcases List.mem_cons.mp hd' with h | hmem
        · rw [h] at hq'
          exact absurd hq' hq
        · exact hall d' hmem hq'
      · right
        refine ⟨d0, List.mem_cons_of_mem d hd0mem, hq0, heq, hb0, ?_, ?_⟩
        · intro d' hd' hq'
          rcases List.mem_cons.mp hd' with h | hmem
          · rw [h] at hq'
            exact absurd hq' hq
          · exact hmax d' hmem hq'
        · intro d' hd' hlt hq'
          rcases List.mem_cons.mp hd' with h | hmem
          · rw [h] at hq'
            exact absurd hq' hq
          · exact hstrict d' hmem hlt hq'

/-- C7 (amended): when the ring buffer holds at least 20 entries, the
delay re-estimation scores each lag index `d` (lag `d+1`) by averaging
`-(rate - mean_rate)·signal_at_lag` over entries whose lagged signal
magnitude exceeds 0.1, considers a lag only when it has at least 5
qualifying samples, and replaces `estimated_delay` by the SMALLEST lag
achieving the highest qualifying score when that score is positive
(ties go to the smaller lag, not to the prior estimate); otherwise — no
positive qualifying score, or fewer than 20 buffered entries — the state
is unchanged; `estimated_delay` always remains in 1..8. -/
theorem adaptive_estimate_delay_spec (s : AdaptiveState) :
    (s.delay_buf.length < 20 → AdaptiveStep.estimate_delay s = s) ∧
    (1 ≤ s.estimated_delay → s.estimated_delay ≤ AdaptiveStep.MAX_DELAY →
      1 ≤ (AdaptiveStep.estimate_delay s).estimated_delay ∧
        (AdaptiveStep.estimate_delay s).estimated_delay ≤ AdaptiveStep.MAX_DELAY) ∧
    (¬ s.delay_buf.length < 20 →
      ((∀ d < AdaptiveStep.MAX_DELAY, 5 ≤ AdaptiveStep.lagCount s.delay_buf d →
          AdaptiveStep.lagScore s.delay_buf (AdaptiveStep.mean_rate s.delay_buf) d ≤ 0) →
        AdaptiveStep.estimate_delay s = s) ∧
      (∀ d0 < AdaptiveStep.MAX_DELAY, 5 ≤ AdaptiveStep.lagCount s.delay_buf d0 →
        0 < AdaptiveStep.lagScore s.delay_buf (AdaptiveStep.mean_rate s.delay_buf) d0 →
        ∃ d < AdaptiveStep.MAX_DELAY, 5 ≤ AdaptiveStep.lagCount s.delay_buf d ∧
          0 < AdaptiveStep.lagScore s.delay_buf (AdaptiveStep.mean_rate s.delay_buf) d ∧
          (∀ d' < AdaptiveStep.MAX_DELAY, 5 ≤ AdaptiveStep.lagCount s.delay_buf d' →
            AdaptiveStep.lagScore s.delay_buf (AdaptiveStep.mean_rate s.delay_buf) d' ≤
              AdaptiveStep.lagScore s.delay_buf (AdaptiveStep.mean_rate s.delay_buf) d) ∧
          (∀ d' < d, 5 ≤ AdaptiveStep.lagCount s.delay_buf d' →
            AdaptiveStep.lagScore s.delay_buf (AdaptiveStep.mean_rate s.delay_buf) d' <
              AdaptiveStep.lagScore s.delay_buf (AdaptiveStep.mean_rate s.delay_buf) d) ∧
          AdaptiveStep.estimate_delay s = { s with estimated_delay := d + 1 })) := by
  have hspec := AdaptiveStep.delay_loop_spec s.delay_buf
    (AdaptiveStep.mean_rate s.delay_buf) (List.range AdaptiveStep.MAX_DELAY)
    (s.estimated_delay, none) (List.sorted_lt_range _)
  refine ⟨?_, ?_, ?_⟩
  · intro h
    unfold AdaptiveStep.estimate_delay
    rw [if_pos h]
  · intro h1 h8
    by_cases h20 : s.delay_buf.length < 20
    · unfold AdaptiveStep.estimate_delay
      rw [if_pos h20]
      exact ⟨h1, h8⟩
    · unfold AdaptiveStep.estimate_delay
      rw [if_neg h20]
      dsimp only
      rcases hspec with ⟨heq, _⟩ | ⟨d, hdmem, hq, heq, _, hmax, _⟩
      · simp only [heq]
        exact ⟨h1, h8⟩
      · simp only [heq]
        by_cases hpos :
            AdaptiveStep.lagScore s.delay_buf (AdaptiveStep.mean_rate s.delay_buf) d > 0
        · rw [if_pos hpos]
          have hdlt := List.mem_range.mp hdmem
          unfold AdaptiveStep.MAX_DELAY at hdlt ⊢
          dsimp only
          omega
        · rw [if_neg hpos]
          exact ⟨h1, h8⟩
  · intro h20
    constructor
    · intro hall
      unfold AdaptiveStep.estimate_delay
      rw [if_neg h20]
      dsimp only
      rcases hspec with ⟨heq, _⟩ | ⟨d, hdmem, hq, heq, _, hmax, _⟩
      · simp only [heq]
      · simp only [heq]
        rw [if_neg (not_lt.mpr (hall d (List.mem_range.mp hdmem) hq))]
    · intro d0 hd0 hq0 hpos0
      rcases hspec with ⟨heq, hall⟩ | ⟨d, hdmem, hq, heq, hbeats, hmax, hstrict⟩
      · have h := hall d0 (List.mem_range.mpr hd0) hq0
        exact absurd trivial h
      · have hdlt := List.mem_range.mp hdmem
        have hsd : 0 < AdaptiveStep.lagScore s.delay_buf (AdaptiveStep.mean_rate s.delay_buf) d :=
          lt_of_lt_of_le hpos0 (hmax d0 (List.mem_range.mpr hd0) hq0)
        refine ⟨d, hdlt, hq, hsd, ?_, ?_, ?_⟩
        · intro d' hd' hq'
          exact hmax d' (List.mem_range.mpr hd') hq'
        · intro d' hd' hq'
          exact hstrict d' (List.mem_range.mpr (lt_trans hd' hdlt)) hd' hq'
        · unfold AdaptiveStep.estimate_delay
          rw [if_neg h20]
          dsimp only
          simp only [heq]
          rw [if_pos hsd]

theorem list_filter_replicate_true {α : Type} (n : ℕ) (a : α) (p : α → Bool)
    (h : p a = true) : (List.replicate n a).filter p = List.replicate n a := by
  induction n with
  | zero => rfl
  | succ n ih => simp [List.replicate_succ, List.filter_cons, h, ih]

theorem list_getD_replicate (n d : ℕ) (x y : ℝ) (hd : d < n) :
    (List.replicate n x).getD d y = x := by
  induction d generalizing n with
  | zero =>
    cases n with
    | zero => omega
    | succ n => rfl
  | succ d ih =>
    cases n with
    | zero => omega
    | succ n =>
      have := ih n (by omega)
      simpa [List.replicate_succ] using this

/-- C7 counterexample: the positive-rate half of the tie buffer. -/
def c7sigsP : List ℝ := List.replicate 8 0.5

/-- C7 counterexample: the negative-rate half of the tie buffer. -/
def c7sigsN : List ℝ := List.replicate 8 (-0.5)

/-- C7 counterexample ring buffer: 10 entries of rate 0 with all lag
signals 0.5, then 10 entries of rate 2 with all lag signals -0.5, so all
8 lags qualify with the same positive score 1/2. -/
def c7buf : List (ℝ × List ℝ) :=
  List.replicate 10 ((0:ℝ), c7sigsP) ++ List.replicate 10 ((2:ℝ), c7sigsN)

/-- C7 counterexample state: prior `estimated_delay = 2` (one of the tied
best lags), with the tie buffer. -/
def c7state : AdaptiveState :=
  { AdaptiveStep.init with estimated_delay := 2, delay_buf := c7buf }

theorem c7_lagQual (d : ℕ) (hd : d < 8) : AdaptiveStep.lagQual c7buf d = c7buf := by
  unfold AdaptiveStep.lagQual
  rw [List.filter_eq_self]
  intro a ha
  rw [decide_eq_true_eq]
  unfold c7buf at ha
  rcases List.mem_append.mp ha with h | h <;> rw [List.eq_of_mem_replicate h] <;> dsimp only
  · unfold c7sigsP
    rw [list_getD_replicate 8 d _ _ hd, abs_of_pos (by norm_num : (0:ℝ) < 0.5)]
    norm_num
  · unfold c7sigsN
    rw [list_getD_replicate 8 d _ _ hd, abs_of_neg (by norm_num : (-0.5:ℝ) < 0)]
    norm_num

theorem c7_lagCount (d : ℕ) (hd : d < 8) : AdaptiveStep.lagCount c7buf d = 20 := by
  unfold AdaptiveStep.lagCount
  rw [c7_lagQual d hd]
  simp [c7buf]

theorem c7_mean_rate : AdaptiveStep.mean_rate c7buf = 1 := by
  unfold AdaptiveStep.mean_rate c7buf
  rw [List.map_append]
  simp [List.map_replicate, List.sum_replicate]
  norm_num

theorem c7_lagScore (d : ℕ) (hd : d < 8) :
    AdaptiveStep.lagScore c7buf (AdaptiveStep.mean_rate c7buf) d = 1/2 := by
  unfold AdaptiveStep.lagScore
  rw [c7_lagQual d hd, c7_lagCount d hd, c7_mean_rate]
  unfold c7buf
  rw [List.map_append]
  simp only [List.map_replicate, List.sum_append, List.sum_replicate]
  unfold c7sigsP c7sigsN
  rw [list_getD_replicate 8 d _ _ hd, list_getD_replicate 8 d _ _ hd]
  norm_num

theorem c7_loop :
    AdaptiveStep.delay_loop c7buf (AdaptiveStep.mean_rate c7buf)
      (List.range AdaptiveStep.MAX_DELAY) (2, none) = (1, some (1/2)) := by
  have hrange : List.range AdaptiveStep.MAX_DELAY = [0, 1, 2, 3, 4, 5, 6, 7] := rfl
  have hc0 := c7_lagCount 0 (by norm_num)
  have hc1 := c7_lagCount 1 (by norm_num)
  have hc2 := c7_lagCount 2 (by norm_num)
  have hc3 := c7_lagCount 3 (by norm_num)
  have hc4 := c7_lagCount 4 (by norm_num)
  have hc5 := c7_lagCount 5 (by norm_num)
  have hc6 := c7_lagCount 6 (by norm_num)
  have hc7 := c7_lagCount 7 (by norm_num)
  have hs0 := c7_lagScore 0 (by norm_num)
  have hs1 := c7_lagScore 1 (by norm_num)
  have hs2 := c7_lagScore 2 (by norm_num)
  have hs3 := c7_lagScore 3 (by norm_num)
  have hs4 := c7_lagScore 4 (by norm_num)
  have hs5 := c7_lagScore 5 (by norm_num)
  have hs6 := c7_lagScore 6 (by norm_num)
  have hs7 := c7_lagScore 7 (by norm_num)
  rw [hrange]
  simp only [AdaptiveStep.delay_loop]
  norm_num [AdaptiveStep.scoreBeats, hc0, hc1, hc2, hc3, hc4, hc5, hc6, hc7,
    hs0, hs1, hs2, hs3, hs4, hs5, hs6, hs7]

/-- C7 counterexample: with 20 buffered entries, all 8 lags qualifying
with the same positive score and the prior estimate 2 among the tied best
lags, the code moves `estimated_delay` to 1 (the first maximal lag) — it
does not keep the prior estimate on ties. -/
theorem adaptive_estimate_delay_tie_counterexample :
    c7state.estimated_delay = 2 ∧
      AdaptiveStep.lagScore c7state.delay_buf (AdaptiveStep.mean_rate c7state.delay_buf) 0 =
        AdaptiveStep.lagScore c7state.delay_buf (AdaptiveStep.mean_rate c7state.delay_buf) 1 ∧
      0 < AdaptiveStep.lagScore c7state.delay_buf (AdaptiveStep.mean_rate c7state.delay_buf) 1 ∧
      5 ≤ AdaptiveStep.lagCount c7state.delay_buf 0 ∧
      5 ≤ AdaptiveStep.lagCount c7state.delay_buf 1 ∧
      (AdaptiveStep.estimate_delay c7state).estimated_delay = 1 := by
  have hbuf : c7state.delay_buf = c7buf := rfl
  have hlen : c7buf.length = 20 := by simp [c7buf]
  refine ⟨rfl, ?_, ?_, ?_, ?_, ?_⟩
  · rw [hbuf, c7_lagScore 0 (by norm_num), c7_lagScore 1 (by norm_num)]
  · rw [hbuf, c7_lagScore 1 (by norm_num)]
    norm_num
  · rw [hbuf, c7_lagCount 0 (by norm_num)]
    norm_num
  · rw [hbuf, c7_lagCount 1 (by norm_num)]
    norm_num
  · unfold AdaptiveStep.estimate_delay
    rw [if_neg (by rw [hbuf, hlen]; norm_num)]
    dsimp only
    rw [hbuf]
    have hed : c7state.estimated_delay = 2 := rfl
    rw [hed, c7_loop]
    norm_num

theorem adaptive_estimate_delay_witness :
    AdaptiveStep.init.delay_buf.length < 20 ∧
      AdaptiveStep.estimate_delay AdaptiveStep.init = AdaptiveStep.init := by
  have h : AdaptiveStep.init.delay_buf.length < 20 := by
    norm_num [AdaptiveStep.init]
  exact ⟨h, (adaptive_estimate_delay_spec AdaptiveStep.init).1 h⟩

-- ── Closed-loop week simulator (simulate.py) ──────────────────────────

/-- The pseudo-random stream primitives `simulate_week_closed_loop` draws
from (`rng.random()`, `rng.exponential(scale)`, `rng.normal(mu, std)`),
modelled as pure state transformers on an abstract generator state `ρ`
(`np.random.default_rng(seed)` yields the initial `ρ`). -/
structure RNGModel (ρ : Type) where
  unif : ρ → ℝ × ρ
  expo : ℝ → ρ → ℝ × ρ
  norm : ℝ → ℝ → ρ → ℝ × ρ

/-- The calibrator capability set (`reset` / `step`) as consumed by the
simulator, over an abstract calibrator state `σ`. -/
structure StepAlgo (σ : Type) where
  reset : σ → σ
  step : σ → Poll → σ × ℝ

/-- The `NoFeedbackStep` calibrator as a `StepAlgo` (reset is a no-op,
step always returns 0). -/
def noFeedbackAlgo : StepAlgo Unit :=
  ⟨fun s => s, fun s _poll => (s, 0)⟩

/-- All inputs of `simulate_week_closed_loop` except the seed:
`profile_fn, algo, compliance, delay, noise_std, miss_prob, dead_zone`
(the rng model interprets the seed's stream). -/
structure CLConfig (ρ σ : Type) where
  rngm : RNGModel ρ
  profile_fn : ρ → ℝ → ℕ → ℕ → ℝ → ℝ × ρ
  algo : StepAlgo σ
  compliance : ℝ
  delay : ℕ
  noise_std : ℝ
  miss_prob : ℝ
  dead_zone : ℝ

/-- The loop state of `simulate_week_closed_loop`.  `polls`, `cals` and
`session_cals` are newest-first. -/
structure SimState (ρ σ : Type) where
  rng : ρ
  algoState : σ
  polls : List Poll
  cals : List ℝ
  session_cals : List ℝ
  consec_sat : ℕ
  wu : ℝ
  su : ℝ
  sr : ℝ
  in_session : Bool
  session_num : ℕ
  last_session_end : ℝ

/-- `raw_cal`: the calibrator signal emitted `delay` ticks ago this
session (`session_cals[len - delay]` when `delay > 0` and the index is
valid, else 0); with newest-first storage that is entry `delay - 1`. -/
def rawCal (session_cals : List ℝ) (delay : ℕ) : ℝ :=
  if 0 < delay ∧ delay ≤ session_cals.length then session_cals.getD (delay - 1) 0 else 0

/-- `fatigue = max(FATIGUE_FLOOR, 1 - FATIGUE_RATE * consec_sat)`. -/
def fatigueMult (consec_sat : ℕ) : ℝ :=
  max FATIGUE_FLOOR (1 - FATIGUE_RATE * consec_sat)

/-- `rate_mult = max(0.15, 1 - noisy_compliance * effective_cal * COMPLIANCE_GAIN)`. -/
def rateMult (noisy_compliance effective_cal : ℝ) : ℝ :=
  max 0.15 (1 - noisy_compliance * effective_cal * COMPLIANCE_GAIN)

/-- The usage update of an active in-session tick: clamp the increment
into the session budget, add it, convert into weekly usage. -/
def usageUpdate (su wu delta0 : ℝ) : ℝ × ℝ :=
  let delta := max 0 (min delta0 (100 - su))
  (su + delta, min 100 (wu + delta * EXCHANGE_RATE))

/-- Session-expiry phase of one tick. -/
def tickExpire {ρ σ : Type} (t : ℝ) (st : SimState ρ σ) : SimState ρ σ :=
  if st.in_session then
    let sr' := max 0 (st.sr - POLL_INTERVAL)
    if sr' ≤ 0 then
      { st with sr := sr', in_session := false, su := 0, last_session_end := t }
    else { st with sr := sr' }
  else st

/-- Session-start phase of one tick (the exponential gap draw happens
only when at least one session has already occurred). -/
def tickStart {ρ σ : Type} (cfg : CLConfig ρ σ) (t : ℝ) (active : Bool)
    (st : SimState ρ σ) : SimState ρ σ :=
  if active ∧ st.in_session = false then
    let gap := t - st.last_session_end
    let ng := if 0 < st.session_num then
                let er := cfg.rngm.expo 20 st.rng
                (10 + er.1, er.2)
              else (0, st.rng)
    if gap ≥ ng.1 then
      { st with rng := ng.2, in_session := true, session_num := st.session_num + 1,
                su := 0, sr := SESSION_MIN, session_cals := [], consec_sat := 0 }
    else { st with rng := ng.2 }
  else st

/-- Consumption phase of one tick: base draw, stale signal lookup, miss
check, fatigue update, dead-zone gate, noisy compliance, rate multiplier,
clamped usage update. -/
def tickConsume {ρ σ : Type} (cfg : CLConfig ρ σ) (day : ℕ) (hour : ℝ) (active : Bool)
    (st : SimState ρ σ) : SimState ρ σ :=
  if st.in_session ∧ active then
    let elapsed := SESSION_MIN - st.sr
    let pr := cfg.profile_fn st.rng elapsed st.session_num day hour
    let raw_cal := rawCal st.session_cals cfg.delay
    let ur := cfg.rngm.unif pr.2
    let looked : Bool := ur.1 ≥ cfg.miss_prob
    let consec_sat' :=
      if looked then
        (if |raw_cal| > FATIGUE_SAT then st.consec_sat + 1 else st.consec_sat - 1)
      else st.consec_sat
    let effective_cal :=
      if looked then (if |raw_cal| ≥ cfg.dead_zone then raw_cal else 0) else 0
    let nr := cfg.rngm.norm 0 cfg.noise_std ur.2
    let noisy_compliance := max 0 (cfg.compliance + nr.1) * fatigueMult consec_sat'
    let uw := usageUpdate st.su st.wu (pr.1 * rateMult noisy_compliance effective_cal)
    { st with rng := nr.2, consec_sat := consec_sat', su := uw.1, wu := uw.2 }
  else st

/-- Poll/calibrate phase of one tick. -/
def tickPoll {ρ σ : Type} (cfg : CLConfig ρ σ) (t wr : ℝ)
    (st : SimState ρ σ) : SimState ρ σ :=
  if st.in_session then
    let poll : Poll := ⟨t, st.su, st.sr, st.wu, wr⟩
    let sc := cfg.algo.step st.algoState poll
    { st with algoState := sc.1, polls := poll :: st.polls, cals := sc.2 :: st.cals,
              session_cals := sc.2 :: st.session_cals }
  else st

/-- One iteration of the `for tick in range(...)` loop of
`simulate_week_closed_loop` (`t = tick * POLL_INTERVAL`; the day and hour
are exact since `t` is a multiple of 5). -/
def clTick {ρ σ : Type} (cfg : CLConfig ρ σ) (tick : ℕ) (st : SimState ρ σ) : SimState ρ σ :=
  let t : ℝ := tick * POLL_INTERVAL
  let wr := WEEK_MIN - t
  let day : ℕ := tick * 5 / 1440
  let hour : ℝ := ((tick * 5) % 1440 : ℕ) / 60
  let active : Bool := decide (ACTIVE_START ≤ hour ∧ hour < ACTIVE_END)
  tickPoll cfg t wr (tickConsume cfg day hour active (tickStart cfg t active (tickExpire t st)))

/-- The initial loop state of `simulate_week_closed_loop` (after
`algo.reset()`), from the seed's generator state `seedRng`. -/
def clInit {ρ σ : Type} (cfg : CLConfig ρ σ) (seedRng : ρ) (a0 : σ) : SimState ρ σ :=
  { rng := seedRng, algoState := cfg.algo.reset a0, polls := [], cals := [],
    session_cals := [], consec_sat := 0, wu := 0, su := 0, sr := 0,
    in_session := false, session_num := 0, last_session_end := -9999 }

/-- The first `n` iterations of the loop. -/
def clSteps {ρ σ : Type} (cfg : CLConfig ρ σ) : ℕ → SimState ρ σ → SimState ρ σ
  | 0, st => st
  | n + 1, st => clTick cfg n (clSteps cfg n st)

/-- `simulate_week_closed_loop` (2016 ticks; the traces are newest-first). -/
def simulate_week_closed_loop {ρ σ : Type} (cfg : CLConfig ρ σ) (seedRng : ρ) (a0 : σ) :
    List Poll × List ℝ :=
  let fin := clSteps cfg 2016 (clInit cfg seedRng a0)
  (fin.polls, fin.cals)

-- ── Behavior-model clamping (C2) ──────────────────────────────────────

/-- Usage invariant of the closed-loop simulator state. -/
def SimInv {ρ σ : Type} (st : SimState ρ σ) : Prop :=
  0 ≤ st.su ∧ st.su ≤ 100 ∧ 0 ≤ st.wu ∧ st.wu ≤ 100

theorem usageUpdate_mono (su wu d : ℝ) (h1 : 0 ≤ su) (h2 : su ≤ 100)
    (h3 : 0 ≤ wu) (h4 : wu ≤ 100) :
    su ≤ (usageUpdate su wu d).1 ∧ (usageUpdate su wu d).1 ≤ 100 ∧
      wu ≤ (usageUpdate su wu d).2 ∧ (usageUpdate su wu d).2 ≤ 100 := by
  unfold usageUpdate EXCHANGE_RATE
  dsimp only
  have hd0 : 0 ≤ max 0 (min d (100 - su)) := le_max_left _ _
  have hd1 : max 0 (min d (100 - su)) ≤ 100 - su :=
    max_le (by linarith) (min_le_right _ _)
  have hw : 0 ≤ max 0 (min d (100 - su)) * 0.12 := mul_nonneg hd0 (by norm_num)
  exact ⟨by linarith, by linarith, le_min h4 (by linarith), min_le_left _ _⟩

theorem tickExpire_inv {ρ σ : Type} (t : ℝ) (st : SimState ρ σ)
    (h : SimInv st) : SimInv (tickExpire t st) := by
  obtain ⟨h1, h2, h3, h4⟩ := h
  unfold tickExpire SimInv
  dsimp only
  split_ifs
  · exact ⟨le_refl 0, by norm_num, h3, h4⟩
  · exact ⟨h1, h2, h3, h4⟩
  · exact ⟨h1, h2, h3, h4⟩

theorem tickStart_inv {ρ σ : Type} (cfg : CLConfig ρ σ) (t : ℝ) (active : Bool)
    (st : SimState ρ σ) (h : SimInv st) : SimInv (tickStart cfg t active st) := by
  obtain ⟨h1, h2, h3, h4⟩ := h
  unfold tickStart SimInv
  dsimp only
  split_ifs
  all_goals
    first
      | exact ⟨h1, h2, h3, h4⟩
      | exact ⟨le_refl 0, by norm_num, h3, h4⟩

theorem tickConsume_inv {ρ σ : Type} (cfg : CLConfig ρ σ) (day : ℕ) (hour : ℝ)
    (active : Bool) (st : SimState ρ σ) (h : SimInv st) :
    SimInv (tickConsume cfg day hour active st) := by
  obtain ⟨h1, h2, h3, h4⟩ := h
  unfold tickConsume SimInv
  dsimp only
  split_ifs
  all_goals
    first
      | exact ⟨h1, h2, h3, h4⟩
      | exact ⟨le_trans h1 (usageUpdate_mono st.su st.wu _ h1 h2 h3 h4).1,
          (usageUpdate_mono st.su st.wu _ h1 h2 h3 h4).2.1,
          le_trans h3 (usageUpdate_mono st.su st.wu _ h1 h2 h3 h4).2.2.1,
          (usageUpdate_mono st.su st.wu _ h1 h2 h3 h4).2.2.2⟩

theorem tickPoll_inv {ρ σ : Type} (cfg : CLConfig ρ σ) (t wr : ℝ)
    (st : SimState ρ σ) (h : SimInv st) : SimInv (tickPoll cfg t wr st) := by
  obtain ⟨h1, h2, h3, h4⟩ := h
  unfold tickPoll SimInv
  dsimp only
  split_ifs
  · exact ⟨h1, h2, h3, h4⟩
  · exact ⟨h1, h2, h3, h4⟩

theorem clTick_inv {ρ σ : Type} (cfg : CLConfig ρ σ) (k : ℕ) (st : SimState ρ σ)
    (h : SimInv st) : SimInv (clTick cfg k st) := by
  unfold clTick
  exact tickPoll_inv _ _ _ _ (tickConsume_inv _ _ _ _ _ (tickStart_inv _ _ _ _
    (tickExpire_inv _ _ h)))

theorem clSteps_inv {ρ σ : Type} (cfg : CLConfig ρ σ) (seedRng : ρ) (a0 : σ) (n : ℕ) :
    SimInv (clSteps cfg n (clInit cfg seedRng a0)) := by
  induction n with
  | zero =>
    refine ⟨le_refl 0, ?_, le_refl 0, ?_⟩ <;> · show (0:ℝ) ≤ 100; norm_num
  | succ n ih => exact clTick_inv cfg n _ ih

/-- C2: at every tick of the closed-loop week simulator — for every
profile function, rng interpretation, calibrator, seed, compliance
profile and tick count — the state's session and weekly usage lie in
[0, 100], and at the point where a rate multiplier is applied (the state
after the expiry and session-start phases), applying the clamped usage
update with ANY increment `delta0 = base · rate_mult` leaves both usages
no smaller than before and no larger than 100. -/
theorem behavior_model_clamping {ρ σ : Type} (cfg : CLConfig ρ σ) (seedRng : ρ)
    (a0 : σ) (n : ℕ) (t : ℝ) (active : Bool) (delta0 : ℝ) :
    (0 ≤ (clSteps cfg n (clInit cfg seedRng a0)).su ∧
      (clSteps cfg n (clInit cfg seedRng a0)).su ≤ 100 ∧
      0 ≤ (clSteps cfg n (clInit cfg seedRng a0)).wu ∧
      (clSteps cfg n (clInit cfg seedRng a0)).wu ≤ 100) ∧
    ((tickStart cfg t active (tickExpire t (clSteps cfg n (clInit cfg seedRng a0)))).su ≤
        (usageUpdate
          (tickStart cfg t active (tickExpire t (clSteps cfg n (clInit cfg seedRng a0)))).su
          (tickStart cfg t active (tickExpire t (clSteps cfg n (clInit cfg seedRng a0)))).wu
          delta0).1 ∧
      (usageUpdate
          (tickStart cfg t active (tickExpire t (clSteps cfg n (clInit cfg seedRng a0)))).su
          (tickStart cfg t active (tickExpire t (clSteps cfg n (clInit cfg seedRng a0)))).wu
          delta0).1 ≤ 100 ∧
      (tickStart cfg t active (tickExpire t (clSteps cfg n (clInit cfg seedRng a0)))).wu ≤
        (usageUpdate
          (tickStart cfg t active (tickExpire t (clSteps cfg n (clInit cfg seedRng a0)))).su
          (tickStart cfg t active (tickExpire t (clSteps cfg n (clInit cfg seedRng a0)))).wu
          delta0).2 ∧
      (usageUpdate
          (tickStart cfg t active (tickExpire t (clSteps cfg n (clInit cfg seedRng a0)))).su
          (tickStart cfg t active (tickExpire t (clSteps cfg n (clInit cfg seedRng a0)))).wu
          delta0).2 ≤ 100) := by
  have hinv := clSteps_inv cfg seedRng a0 n
  have hmid : SimInv (tickStart cfg t active (tickExpire t (clSteps cfg n (clInit cfg seedRng a0)))) :=
    tickStart_inv _ _ _ _ (tickExpire_inv _ _ hinv)
  obtain ⟨m1, m2, m3, m4⟩ := hmid
  exact ⟨hinv, usageUpdate_mono _ _ delta0 m1 m2 m3 m4⟩

-- ── Behavior-model rate multiplier (C4) ───────────────────────────────

/-- The rate multiplier as the specification words it (spec-side
definition for the refinement claim): `max(0.15, 1 − noisy_compliance ·
effective_signal · 0.7)`, where `effective_signal` is the signal emitted
`delay` ticks ago in the current session after the miss check and the
dead-zone gate (zero when its magnitude is below `dead_zone`), and
`noisy_compliance` is `max(0, compliance + noise)` scaled by the fatigue
multiplier. -/
def spec_rate_mult (session_cals : List ℝ) (delay : ℕ) (looked : Bool)
    (dead_zone compliance noise : ℝ) (consec_sat : ℕ) : ℝ :=
  let effective_signal :=
    if looked then
      (if |rawCal session_cals delay| < dead_zone then 0 else rawCal session_cals delay)
    else 0
  let noisy_compliance := max 0 (compliance + noise) * fatigueMult consec_sat
  max 0.15 (1 - noisy_compliance * effective_signal * (0.7:ℝ))

/-- C4: at every active in-session tick, the closed-loop behavior model
updates the usages by applying exactly the multiplier
`max(0.15, 1 − noisy_compliance · effective_signal · 0.7)` of the
specification to the base increment drawn from the profile function (the
`looked` draw, noise draw and post-update fatigue counter are read off
the tick itself). -/
theorem behavior_rate_mult_spec {ρ σ : Type} (cfg : CLConfig ρ σ) (day : ℕ) (hour : ℝ)
    (st : SimState ρ σ) (h : st.in_session = true) :
    (tickConsume cfg day hour true st).su =
      (usageUpdate st.su st.wu
        ((cfg.profile_fn st.rng (SESSION_MIN - st.sr) st.session_num day hour).1 *
          spec_rate_mult st.session_cals cfg.delay
            (decide ((cfg.rngm.unif
              (cfg.profile_fn st.rng (SESSION_MIN - st.sr) st.session_num day hour).2).1
                ≥ cfg.miss_prob))
            cfg.dead_zone cfg.compliance
            (cfg.rngm.norm 0 cfg.noise_std
              (cfg.rngm.unif
                (cfg.profile_fn st.rng (SESSION_MIN - st.sr) st.session_num day hour).2).2).1
            (tickConsume cfg day hour true st).consec_sat)).1 ∧
    (tickConsume cfg day hour true st).wu =
      (usageUpdate st.su st.wu
        ((cfg.profile_fn st.rng (SESSION_MIN - st.sr) st.session_num day hour).1 *
          spec_rate_mult st.session_cals cfg.delay
            (decide ((cfg.rngm.unif
              (cfg.profile_fn st.rng (SESSION_MIN - st.sr) st.session_num day hour).2).1
                ≥ cfg.miss_prob))
            cfg.dead_zone cfg.compliance
            (cfg.rngm.norm 0 cfg.noise_std
              (cfg.rngm.unif
                (cfg.profile_fn st.rng (SESSION_MIN - st.sr) st.session_num day hour).2).2).1
            (tickConsume cfg day hour true st).consec_sat)).2 := by
  have hgate : ∀ (r dz : ℝ), (if |r| ≥ dz then r else 0) = (if |r| < dz then 0 else r) := by
    intro r dz
    split_ifs with ha hb
    · exact absurd ha (not_le.mpr hb)
    · rfl
    · rfl
    · exact absurd (not_lt.mp (by assumption)) (by assumption)
  have hc : (st.in_session ∧ (true : Bool)) := ⟨h, rfl⟩
  unfold tickConsume spec_rate_mult rateMult fatigueMult COMPLIANCE_GAIN
  dsimp only
  rw [if_pos hc]
  dsimp only
  constructor
  · congr 2
    rw [hgate]
  · congr 2
    rw [hgate]

/-- A trivial rng model for witnesses: every draw returns 0. -/
def zeroRngm : RNGModel Unit := ⟨fun r => (0, r), fun _ r => (0, r), fun _ _ r => (0, r)⟩

/-- Concrete config for the C4 witness. -/
def c4cfg : CLConfig Unit Unit :=
  ⟨zeroRngm, fun r _ _ _ _ => (1, r), noFeedbackAlgo, 0.5, 1, 0.1, 0.2, 0.35⟩

/-- Concrete mid-session state for the C4 witness. -/
def c4st : SimState Unit Unit := ⟨(), (), [], [], [], 0, 40, 50, 100, true, 1, 0⟩

theorem behavior_rate_mult_witness :
    c4st.in_session = true ∧
      (tickConsume c4cfg 0 12 true c4st).su =
        (usageUpdate c4st.su c4st.wu
          ((c4cfg.profile_fn c4st.rng (SESSION_MIN - c4st.sr) c4st.session_num 0 12).1 *
            spec_rate_mult c4st.session_cals c4cfg.delay
              (decide ((c4cfg.rngm.unif
                (c4cfg.profile_fn c4st.rng (SESSION_MIN - c4st.sr) c4st.session_num 0 12).2).1
                  ≥ c4cfg.miss_prob))
              c4cfg.dead_zone c4cfg.compliance
              (c4cfg.rngm.norm 0 c4cfg.noise_std
                (c4cfg.rngm.unif
                  (c4cfg.profile_fn c4st.rng (SESSION_MIN - c4st.sr) c4st.session_num 0 12).2).2).1
              (tickConsume c4cfg 0 12 true c4st).consec_sat)).1 :=
  ⟨rfl, (behavior_rate_mult_spec c4cfg 0 12 c4st rfl).1⟩

-- ── Determinism of the closed-loop simulator (C9) ─────────────────────

/-- The reachability relation of the closed-loop simulator: `Reaches cfg
seedRng a0 n st` holds when `st` is a state obtained after `n` loop
iterations of a run configured by `cfg` from the seed's generator state
and the fresh calibrator state `a0`. -/
inductive Reaches {ρ σ : Type} (cfg : CLConfig ρ σ) (seedRng : ρ) (a0 : σ) :
    ℕ → SimState ρ σ → Prop
  | zero : Reaches cfg seedRng a0 0 (clInit cfg seedRng a0)
  | succ {n : ℕ} {st st' : SimState ρ σ} :
      Reaches cfg seedRng a0 n st → st' = clTick cfg n st →
      Reaches cfg seedRng a0 (n + 1) st'

/-- C9: the closed-loop week simulation is deterministic given its seed:
any two runs with the same profile function / rng interpretation /
calibrator / compliance parameters (one `cfg`), the same seed state and
the same fresh calibrator state pass through identical states — in
particular two full 2016-tick weeks have identical poll traces and
identical signal traces. -/
theorem closed_loop_deterministic {ρ σ : Type} (cfg : CLConfig ρ σ)
    (seedRng : ρ) (a0 : σ) :
    (∀ (n : ℕ) (st₁ st₂ : SimState ρ σ),
      Reaches cfg seedRng a0 n st₁ → Reaches cfg seedRng a0 n st₂ → st₁ = st₂) ∧
    (∀ st₁ st₂ : SimState ρ σ,
      Reaches cfg seedRng a0 2016 st₁ → Reaches cfg seedRng a0 2016 st₂ →
        st₁.polls = st₂.polls ∧ st₁.cals = st₂.cals) := by
  have key : ∀ (n : ℕ) (st₁ st₂ : SimState ρ σ),
      Reaches cfg seedRng a0 n st₁ → Reaches cfg seedRng a0 n st₂ → st₁ = st₂ := by
    intro n
    induction n with
    | zero =>
      intro st₁ st₂ h₁ h₂
      cases h₁
      cases h₂
      rfl
    | succ n ih =>
      intro st₁ st₂ h₁ h₂
      cases h₁ with
      | succ hr₁ he₁ =>
        cases h₂ with
        | succ hr₂ he₂ =>
          rw [he₁, he₂, ih _ _ hr₁ hr₂]
  exact ⟨key, fun st₁ st₂ h₁ h₂ => by rw [key 2016 st₁ st₂ h₁ h₂]; exact ⟨rfl, rfl⟩⟩

/-- Concrete config for the C9 witness. -/
def c9cfg : CLConfig Unit Unit :=
  ⟨zeroRngm, fun r _ _ _ _ => (1, r), noFeedbackAlgo, 0.5, 1, 0.1, 0.2, 0.35⟩

theorem closed_loop_deterministic_witness :
    Reaches c9cfg () () 0 (clInit c9cfg () ()) ∧
      clInit c9cfg () () = clInit c9cfg () () :=
  ⟨Reaches.zero,
    (closed_loop_deterministic c9cfg () ()).1 0 _ _ Reaches.zero Reaches.zero⟩

-- ── Delay-zero feedback is inert (C10) ────────────────────────────────

theorem rawCal_zero_delay (cals : List ℝ) : rawCal cals 0 = 0 := by
  unfold rawCal
  rw [if_neg]
  simp

/-- The same run configuration with the calibrator replaced by the
No Feedback calibrator (all other parameters identical). -/
def withNoFeedback {ρ σ : Type} (cfg : CLConfig ρ σ) : CLConfig ρ Unit :=
  { rngm := cfg.rngm, profile_fn := cfg.profile_fn, algo := noFeedbackAlgo,
    compliance := cfg.compliance, delay := cfg.delay, noise_std := cfg.noise_std,
    miss_prob := cfg.miss_prob, dead_zone := cfg.dead_zone }

/-- Correspondence between a run and its No Feedback twin: everything
except the calibrator state and the emitted-signal lists coincides. -/
def DelayFreeSim {ρ σ σ' : Type} (st : SimState ρ σ) (st' : SimState ρ σ') : Prop :=
  st.rng = st'.rng ∧ st.polls = st'.polls ∧ st.consec_sat = st'.consec_sat ∧
  st.wu = st'.wu ∧ st.su = st'.su ∧ st.sr = st'.sr ∧
  st.in_session = st'.in_session ∧ st.session_num = st'.session_num ∧
  st.last_session_end = st'.last_session_end

theorem tickExpire_df {ρ σ σ' : Type} (t : ℝ) (st : SimState ρ σ) (st' : SimState ρ σ')
    (h : DelayFreeSim st st') : DelayFreeSim (tickExpire t st) (tickExpire t st') := by
  obtain ⟨h1, h2, h3, h4, h5, h6, h7, h8, h9⟩ := h
  unfold tickExpire DelayFreeSim
  rw [h1, h2, h3, h4, h5, h6, h7, h8, h9]
  try dsimp only
  split_ifs <;>
    first
      | exact ⟨rfl, rfl, rfl, rfl, rfl, rfl, rfl, rfl, rfl⟩
      | exact ⟨h1, h2, h3, h4, h5, h6, h7, h8, h9⟩

theorem tickStart_df {ρ σ : Type} (cfg : CLConfig ρ σ) (t : ℝ) (active : Bool)
    (st : SimState ρ σ) (st' : SimState ρ Unit) (h : DelayFreeSim st st') :
    DelayFreeSim (tickStart cfg t active st) (tickStart (withNoFeedback cfg) t active st') := by
  obtain ⟨h1, h2, h3, h4, h5, h6, h7, h8, h9⟩ := h
  unfold tickStart DelayFreeSim
  dsimp only [withNoFeedback]
  rw [h1, h2, h3, h4, h5, h6, h7, h8, h9]
  try dsimp only
  split_ifs <;>
    first
      | exact ⟨rfl, rfl, rfl, rfl, rfl, rfl, rfl, rfl, rfl⟩
      | exact ⟨h1, h2, h3, h4, h5, h6, h7, h8, h9⟩

theorem tickConsume_df {ρ σ : Type} (cfg : CLConfig ρ σ) (hdelay : cfg.delay = 0)
    (day : ℕ) (hour : ℝ) (active : Bool)
    (st : SimState ρ σ) (st' : SimState ρ Unit) (h : DelayFreeSim st st') :
    DelayFreeSim (tickConsume cfg day hour active st)
      (tickConsume (withNoFeedback cfg) day hour active st') := by
  obtain ⟨h1, h2, h3, h4, h5, h6, h7, h8, h9⟩ := h
  unfold tickConsume DelayFreeSim
  dsimp only [withNoFeedback]
  rw [hdelay]
  simp only [rawCal_zero_delay]
  rw [h1, h2, h3, h4, h5, h6, h7, h8, h9]
  try dsimp only
  split_ifs <;>
    first
      | exact ⟨rfl, rfl, rfl, rfl, rfl, rfl, rfl, rfl, rfl⟩
      | exact ⟨h1, h2, h3, h4, h5, h6, h7, h8, h9⟩

theorem tickPoll_df {ρ σ : Type} (cfg : CLConfig ρ σ) (t wr : ℝ)
    (st : SimState ρ σ) (st' : SimState ρ Unit) (h : DelayFreeSim st st') :
    DelayFreeSim (tickPoll cfg t wr st) (tickPoll (withNoFeedback cfg) t wr st') := by
  obtain ⟨h1, h2, h3, h4, h5, h6, h7, h8, h9⟩ := h
  unfold tickPoll DelayFreeSim
  dsimp only [withNoFeedback]
  rw [h1, h2, h3, h4, h5, h6, h7, h8, h9]
  try dsimp only
  split_ifs <;>
    first
      | exact ⟨rfl, rfl, rfl, rfl, rfl, rfl, rfl, rfl, rfl⟩
      | exact ⟨h1, h2, h3, h4, h5, h6, h7, h8, h9⟩

theorem clTick_df {ρ σ : Type} (cfg : CLConfig ρ σ) (hdelay : cfg.delay = 0) (k : ℕ)
    (st : SimState ρ σ) (st' : SimState ρ Unit) (h : DelayFreeSim st st') :
    DelayFreeSim (clTick cfg k st) (clTick (withNoFeedback cfg) k st') := by
  unfold clTick
  exact tickPoll_df _ _ _ _ _ (tickConsume_df _ hdelay _ _ _ _ _
    (tickStart_df _ _ _ _ _ (tickExpire_df _ _ _ h)))

theorem clSteps_df {ρ σ : Type} (cfg : CLConfig ρ σ) (hdelay : cfg.delay = 0)
    (seedRng : ρ) (a0 : σ) (n : ℕ) :
    DelayFreeSim (clSteps cfg n (clInit cfg seedRng a0))
      (clSteps (withNoFeedback cfg) n (clInit (withNoFeedback cfg) seedRng ())) := by
  induction n with
  | zero => exact ⟨rfl, rfl, rfl, rfl, rfl, rfl, rfl, rfl, rfl⟩
  | succ n ih => exact clTick_df cfg hdelay n _ _ ih

/-- C10: when the `delay` parameter is 0, the looked-up raw calibration
signal is 0 at every tick, the rate multiplier reduces to
`max(0.15, 1 − 0)` (i.e. 1) for every compliance draw, and the poll trace
of the run is identical to that of a run with the No Feedback calibrator
under the same seed and parameters. -/
theorem delay_zero_no_feedback {ρ σ : Type} (cfg : CLConfig ρ σ) (hdelay : cfg.delay = 0)
    (seedRng : ρ) (a0 : σ) (n : ℕ) :
    (∀ cals : List ℝ, rawCal cals cfg.delay = 0) ∧
    (∀ nc : ℝ, rateMult nc 0 = max 0.15 (1 - 0) ∧ rateMult nc 0 = 1) ∧
    (clSteps cfg n (clInit cfg seedRng a0)).polls =
      (clSteps (withNoFeedback cfg) n (clInit (withNoFeedback cfg) seedRng ())).polls := by
  refine ⟨?_, ?_, (clSteps_df cfg hdelay seedRng a0 n).2.1⟩
  · intro cals
    rw [hdelay]
    exact rawCal_zero_delay cals
  · intro nc
    unfold rateMult
    constructor
    · ring_nf
    · rw [mul_zero, zero_mul, sub_zero]
      exact max_eq_right (by norm_num)

/-- Concrete delay-0 config for the C10 witness. -/
def c10cfg : CLConfig Unit Unit :=
  ⟨zeroRngm, fun r _ _ _ _ => (1, r), noFeedbackAlgo, 0.5, 0, 0.1, 0.2, 0.35⟩

theorem delay_zero_no_feedback_witness :
    c10cfg.delay = 0 ∧
      (clSteps c10cfg 0 (clInit c10cfg () ())).polls =
        (clSteps (withNoFeedback c10cfg) 0 (clInit (withNoFeedback c10cfg) () ())).polls :=
  ⟨rfl, (delay_zero_no_feedback c10cfg rfl () () 0).2.2⟩

end Usage

namespace Usage

/-- C3 scenario poll A: `t=0, session_remaining=300` (other fields free). -/
def pollA (su wu wr : ℝ) : Poll := ⟨0, su, 300, wu, wr⟩

/-- C3 scenario poll B: `t=310, session_remaining=300` (other fields free). -/
def pollB (su wu wr : ℝ) : Poll := ⟨310, su, 300, wu, wr⟩

/-- C3: `detect_boundary(poll, previous)` is true iff `previous` is absent,
or `session_remaining` jumps up by more than 30, or the time gap exceeds
the previous poll's remaining time; in particular the tie-break scenario
(A at `t=0, sr=300`; B at `t=310, sr=300`) is a boundary. -/
theorem detect_boundary_spec :
    (∀ p : Poll, detect_boundary p none = true) ∧
    (∀ p q : Poll,
      detect_boundary p (some q) = true ↔
        (p.sr - q.sr > 30 ∨ p.t - q.t > q.sr)) ∧
    (∀ suA wuA wrA suB wuB wrB : ℝ,
      detect_boundary (pollB suB wuB wrB) (some (pollA suA wuA wrA)) = true) := by
  refine ⟨fun p => rfl, fun p q => ?_, fun suA wuA wrA suB wuB wrB => ?_⟩
  · show (if p.sr - q.sr > BOUNDARY_JUMP then true
          else if p.t - q.t > q.sr then true else false) = true ↔ _
    unfold BOUNDARY_JUMP
    split_ifs with h1 h2
    · simp [h1]
    · simp [h1, h2]
    · simp [h1, h2]
  · unfold detect_boundary pollA pollB BOUNDARY_JUMP
    norm_num

end Usage
